import Mathlib

/-!
Verification of the template-to-configuration rendering engine of
`osbs/build/plugins_configuration.py`: the plugin pipeline document
(`PluginsTemplate`), its lookup / add / remove / argument-patch primitives,
the site-customization pass, the per-plugin rendering rules, and the two
renderers (`PluginsConfiguration`, `SourceContainerPluginsConfiguration`).

Python values that can appear in the JSON pipeline document are embedded as
`JVal`; Python `None` is `JVal.null` (in Python the JSON `null` and the
"unset" sentinel are the same object).  A phase's plugin list is a `List
PluginEntry`; the document is an ordered association list from phase name to
plugin list, mirroring the (insertion-ordered) Python dict loaded from JSON.
Raised exceptions are embedded as `Except` errors: `KeyError`/`IndexError`
from the document primitives as `GetErr`, the `RuntimeError`s of
`_get_plugin_conf_or_fail` as `RunErr`.
-/

namespace Osbs

/-- A JSON-like Python value; `null` embeds Python `None`. -/
inductive JVal where
  | null : JVal
  | bool : Bool → JVal
  | num : Int → JVal
  | str : String → JVal
  | arr : List JVal → JVal
  | obj : List (String × JVal) → JVal
  deriving Inhabited

/-- A Python dict with string keys (insertion ordered), e.g. a plugin's
`args` mapping. -/
abbrev Args := List (String × JVal)

/-- One entry of a phase's plugin list: `{"name": ..., "args": ...}`.
`args` is `none` when the entry has no `"args"` key (the code uses
`setdefault("args", {})` before writing into it). -/
structure PluginEntry where
  name : String
  args : Option Args
  deriving Inhabited

/-- The pipeline document: ordered mapping from phase name to plugin list. -/
abbrev Doc := List (String × List PluginEntry)

/-- Python dict lookup `template[phase]`; `none` is a `KeyError`. -/
def lookupPhase (doc : Doc) (phase : String) : Option (List PluginEntry) :=
  match doc with
  | [] => none
  | kv :: rest => if kv.1 = phase then some kv.2 else lookupPhase rest phase

/-- In-place replacement of an existing phase's plugin list (the Python code
mutates `template[phase]` in place; phase order is untouched). -/
def setPhase (doc : Doc) (phase : String) (ps : List PluginEntry) : Doc :=
  doc.map (fun kv => if kv.1 = phase then (kv.1, ps) else kv)

/-- Python dict assignment `d[k] = v`: replace the value in place when the
key exists, else append the new key at the end. -/
def assocSet (d : Args) (k : String) (v : JVal) : Args :=
  if d.any (fun kv => kv.1 = k) then
    d.map (fun kv => if kv.1 = k then (kv.1, v) else kv)
  else
    d ++ [(k, v)]

/-- `list.remove(p)` of the first entry named `name`, as the loop with
`break` in `PluginsTemplate.remove_plugin` does. -/
def removeFirst (ps : List PluginEntry) (name : String) : List PluginEntry :=
  match ps with
  | [] => []
  | p :: rest => if p.name = name then rest else p :: removeFirst rest name

/-- `PluginsTemplate.remove_plugin`: if the phase's list contains a plugin
of that name remove the first one; `KeyError` (the `error` case) when the
phase key is absent. -/
def remove_plugin (doc : Doc) (phase name : String) : Except Unit Doc :=
  match lookupPhase doc phase with
  | none => .error ()
  | some ps => .ok (setPhase doc phase (removeFirst ps name))

/-- `PluginsTemplate.add_plugin`: override the `args` of every entry of that
name (the Python loop keeps going over the whole list), else append a new
`{name, args}` entry; `KeyError` when the phase key is absent. -/
def add_plugin (doc : Doc) (phase name : String) (args : Args) : Except Unit Doc :=
  match lookupPhase doc phase with
  | none => .error ()
  | some ps =>
    if ps.any (fun p => p.name = name) then
      .ok (setPhase doc phase
        (ps.map (fun p => if p.name = name then { p with args := some args } else p)))
    else
      .ok (setPhase doc phase (ps ++ [{ name := name, args := some args }]))

/-- The two exceptions `get_plugin_conf` can raise: `KeyError` when the
phase key is missing, `IndexError` when `match[0]` is taken of an empty
match list. -/
inductive GetErr where
  | keyError : GetErr
  | indexError : GetErr
  deriving Repr, DecidableEq

/-- `PluginsTemplate.get_plugin_conf`: the first entry of that name. -/
def get_plugin_conf (doc : Doc) (phase name : String) : Except GetErr PluginEntry :=
  match lookupPhase doc phase with
  | none => .error .keyError
  | some ps =>
    match ps.filter (fun x => x.name = name) with
    | [] => .error .indexError
    | x :: _ => .ok x

/-- `PluginsTemplate.has_plugin_conf`: `get_plugin_conf` with both
`KeyError` and `IndexError` converted to `false`. -/
def has_plugin_conf (doc : Doc) (phase name : String) : Bool :=
  match get_plugin_conf doc phase name with
  | .ok _ => true
  | .error _ => false

/-- The two `RuntimeError`s of `PluginsTemplate._get_plugin_conf_or_fail`. -/
inductive RunErr where
  | phaseMisses (phase : String) : RunErr
  | noSuchPlugin (name : String) : RunErr
  deriving Repr, DecidableEq

/-- `PluginsTemplate._get_plugin_conf_or_fail`: `get_plugin_conf` with
`KeyError` re-raised as "plugin phase misses" and `IndexError` as "no such
plugin in template". -/
def get_plugin_conf_or_fail (doc : Doc) (phase name : String) :
    Except RunErr PluginEntry :=
  match get_plugin_conf doc phase name with
  | .error .keyError => .error (.phaseMisses phase)
  | .error .indexError => .error (.noSuchPlugin name)
  | .ok c => .ok c

/-- Mutation of the first entry named `name` (the object `match[0]` of
`get_plugin_conf` aliases): `setdefault("args", {})`, then
`args[arg_key] = arg_value`. -/
def setArgFirst (ps : List PluginEntry) (name arg_key : String) (arg_value : JVal) :
    List PluginEntry :=
  match ps with
  | [] => []
  | p :: rest =>
    if p.name = name then
      { p with args := some (assocSet (p.args.getD []) arg_key arg_value) } :: rest
    else
      p :: setArgFirst rest name arg_key arg_value

/-- `PluginsTemplate.set_plugin_arg`: fetch-or-fail, then write the argument
into the fetched entry's `args` mapping. -/
def set_plugin_arg (doc : Doc) (phase name arg_key : String) (arg_value : JVal) :
    Except RunErr Doc :=
  match get_plugin_conf_or_fail doc phase name with
  | .error e => .error e
  | .ok _ => .ok (setPhase doc phase
      (setArgFirst ((lookupPhase doc phase).getD []) name arg_key arg_value))

/-- `PluginsTemplate.set_plugin_arg_valid`: when `value is not None`
delegate to `set_plugin_arg` and return `True`, else do nothing and return
`False`. -/
def set_plugin_arg_valid (doc : Doc) (phase plugin name : String) (value : JVal) :
    Except RunErr (Doc × Bool) :=
  match value with
  | .null => .ok (doc, false)
  | v =>
    match set_plugin_arg doc phase plugin name v with
    | .error e => .error e
    | .ok d => .ok (d, true)

/-! ## Customization pass (`render_customizations`)

Entries of the site customization document may miss any of their required
keys (`plugin_type`, `plugin_name`, and, for enables, `plugin_args`); the
accesses `plugin['plugin_type']` &c then raise `KeyError`, which the code
catches together with the `KeyError` from a phase missing in the template,
logging one `Invalid custom configuration` diagnostic and moving on.  The
embedding carries the count of those diagnostics next to the document. -/

/-- One entry of `disable_plugins` / `enable_plugins`; a `none` field
embeds a missing key. -/
structure CustomEntry where
  plugin_type : Option String
  plugin_name : Option String
  plugin_args : Option Args
  deriving Inhabited

/-- The customization document (an absent key is an empty list, as
`customize_conf.get(..., [])` makes it). -/
structure CustomizeConf where
  disable_plugins : List CustomEntry
  enable_plugins : List CustomEntry
  deriving Inhabited

/-- One iteration of the `disable_plugins` loop: the second component
counts the `Invalid custom configuration found for disable_plugins`
diagnostics emitted for caught `KeyError`s. -/
def applyDisable : Doc × Nat → CustomEntry → Doc × Nat
  | (doc, diags), e =>
    match e.plugin_type, e.plugin_name with
    | some pt, some pn =>
      match remove_plugin doc pt pn with
      | .ok d => (d, diags)
      | .error _ => (doc, diags + 1)
    | _, _ => (doc, diags + 1)

/-- One iteration of the `enable_plugins` loop, with the same caught
`KeyError` accounting. -/
def applyEnable : Doc × Nat → CustomEntry → Doc × Nat
  | (doc, diags), e =>
    match e.plugin_type, e.plugin_name, e.plugin_args with
    | some pt, some pn, some pa =>
      match add_plugin doc pt pn pa with
      | .ok d => (d, diags)
      | .error _ => (doc, diags + 1)
    | _, _, _ => (doc, diags + 1)

/-- `PluginsConfigurationBase.render_customizations`: the whole
`disable_plugins` loop, then the whole `enable_plugins` loop. -/
def render_customizations (doc : Doc) (conf : CustomizeConf) : Doc × Nat :=
  conf.enable_plugins.foldl applyEnable
    (conf.disable_plugins.foldl applyDisable (doc, 0))

/-! ## User parameters

`user_params` is an external collaborator (its module is not part of this
repository slice); the renderer reads its fields and calls `validate()` and
`to_dict()`.  Fields the rules read are embedded as `JVal` (Python `None`
is `JVal.null`); `build_type`, `image_tag` and `build_image` are the string
fields used by string operations, `arrangement_version` the integer of the
template key, and `additional_tags` the set of extra tag strings (`none`
and the empty set both behave as the empty list through
`additional_tags or set()`). -/

/-- Modelled from the spec: `osbs.constants.BUILD_TYPE_ORCHESTRATOR`
(the constant's module is not in the repository slice), the build-type
value of the orchestrator role. -/
def BUILD_TYPE_ORCHESTRATOR : String := "orchestrator"

/-- Python truthiness of an embedded value (`if value:`). -/
def truthy : JVal → Bool
  | .null => false
  | .bool b => b
  | .num n => n ≠ 0
  | .str s => s ≠ ""
  | .arr xs => !xs.isEmpty
  | .obj kvs => !kvs.isEmpty

/-- The fields of `user_params` the rendering engine reads.
`validate_ok` stands for the outcome of the opaque `validate()` call. -/
structure UserParams where
  validate_ok : Bool
  build_type : String
  image_tag : String
  build_image : String
  arrangement_version : Int
  additional_tags : List String
  yum_repourls : JVal
  filesystem_koji_task_id : JVal
  platform : JVal
  platforms : JVal
  koji_target : JVal
  remote_sources : JVal
  release : JVal
  flatpak : JVal
  compose_ids : JVal
  imagestream_name : JVal
  koji_parent_build : JVal
  koji_upload_dir : JVal
  operator_bundle_replacement_pullspecs : JVal
  operator_csv_modifications_url : JVal
  operator_manifests_extract_platform : JVal
  signing_intent : JVal
  triggered_after_koji_task : JVal
  sources_for_koji_build_nvr : JVal
  sources_for_koji_build_id : JVal
  dependency_replacements : JVal
  parent_images_digests : JVal
  scratch : JVal
  isolated : JVal
  tags_from_yaml : JVal
  buildroot_is_imagestream : JVal
  component : JVal
  git_branch : JVal
  git_ref : JVal
  git_uri : JVal
  koji_task_id : JVal
  user : JVal
  reactor_config_map : JVal
  reactor_config_override : JVal
  git_commit_depth : JVal

/-- The value of a `user_params` field under its Python name, for
`to_dict` projection (only the names of `worker_params` are needed). -/
def fieldVal (u : UserParams) : String → JVal
  | "component" => u.component
  | "git_branch" => u.git_branch
  | "git_ref" => u.git_ref
  | "git_uri" => u.git_uri
  | "koji_task_id" => u.koji_task_id
  | "filesystem_koji_task_id" => u.filesystem_koji_task_id
  | "scratch" => u.scratch
  | "koji_target" => u.koji_target
  | "user" => u.user
  | "yum_repourls" => u.yum_repourls
  | "arrangement_version" => .num u.arrangement_version
  | "koji_parent_build" => u.koji_parent_build
  | "isolated" => u.isolated
  | "reactor_config_map" => u.reactor_config_map
  | "reactor_config_override" => u.reactor_config_override
  | "git_commit_depth" => u.git_commit_depth
  | _ => .null

/-- Modelled from the spec: `user_params.to_dict(field_name_list)` (its
module is not in the repository slice) "projects a subset of fields into a
plain mapping", following the engine's stated pattern that unset (`None`)
values are omitted rather than set to null. -/
def to_dict (u : UserParams) (names : List String) : Args :=
  names.filterMap (fun n =>
    match fieldVal u n with
    | .null => none
    | v => some (n, v))

/-- Python `d.pop(k, default)`: the removed value (or the default) and the
dict without the key. -/
def dictPop (d : Args) (k : String) (dflt : JVal) : JVal × Args :=
  match d.lookup k with
  | some v => (v, d.filter (fun kv => kv.1 ≠ k))
  | none => (dflt, d)

/-! ## Rendering rules

Each rule of `PluginsConfigurationBase` is a straight-line sequence of
argument writes on one `(phase, plugin)`; a write is either a plain
`set_plugin_arg`, a `set_plugin_arg_valid` (skipping `None`), or a
`set_plugin_arg` guarded by an `if` on a user-parameter condition.  The
sequence is embedded as a list of `ArgOp`s run left to right, errors
propagating exactly as uncaught Python exceptions would. -/

/-- One argument write of a rendering rule. -/
inductive ArgOp where
  | set (key : String) (value : JVal) : ArgOp
  | setValid (key : String) (value : JVal) : ArgOp
  | setIf (cond : Bool) (key : String) (value : JVal) : ArgOp

/-- Run one `ArgOp` against the document. -/
def applyOp (doc : Doc) (phase plugin : String) : ArgOp → Except RunErr Doc
  | .set k v => set_plugin_arg doc phase plugin k v
  | .setValid k v =>
    match set_plugin_arg_valid doc phase plugin k v with
    | .error e => .error e
    | .ok p => .ok p.1
  | .setIf c k v => if c then set_plugin_arg doc phase plugin k v else .ok doc

/-- Run a rule's writes in order; the first uncaught exception aborts. -/
def applyOps (doc : Doc) (phase plugin : String) : List ArgOp → Except RunErr Doc
  | [] => .ok doc
  | op :: rest =>
    match applyOp doc phase plugin op with
    | .error e => .error e
    | .ok d => applyOps d phase plugin rest

/-- `render_add_filesystem`. -/
def render_add_filesystem (doc : Doc) (u : UserParams) : Except RunErr Doc :=
  if has_plugin_conf doc "prebuild_plugins" "add_filesystem" then
    applyOps doc "prebuild_plugins" "add_filesystem"
      [.setValid "repos" u.yum_repourls,
       .setValid "from_task_id" u.filesystem_koji_task_id,
       .setValid "architecture" u.platform,
       .setValid "koji_target" u.koji_target]
  else .ok doc

/-- `render_add_image_content_manifest`. -/
def render_add_image_content_manifest (doc : Doc) (u : UserParams) : Except RunErr Doc :=
  if has_plugin_conf doc "prebuild_plugins" "add_image_content_manifest" then
    applyOps doc "prebuild_plugins" "add_image_content_manifest"
      [.setValid "remote_sources" u.remote_sources]
  else .ok doc

/-- `render_add_labels_in_dockerfile`: when a release is given, the
`labels` argument gets the one-key mapping `{'release': release}`. -/
def render_add_labels_in_dockerfile (doc : Doc) (u : UserParams) : Except RunErr Doc :=
  if has_plugin_conf doc "prebuild_plugins" "add_labels_in_dockerfile" then
    applyOps doc "prebuild_plugins" "add_labels_in_dockerfile"
      [.setIf (truthy u.release) "labels" (.obj [("release", u.release)])]
  else .ok doc

/-- `render_add_yum_repo_by_url`. -/
def render_add_yum_repo_by_url (doc : Doc) (u : UserParams) : Except RunErr Doc :=
  if has_plugin_conf doc "prebuild_plugins" "add_yum_repo_by_url" then
    applyOps doc "prebuild_plugins" "add_yum_repo_by_url"
      [.setValid "repourls" u.yum_repourls]
  else .ok doc

/-- `render_check_user_settings`. -/
def render_check_user_settings (doc : Doc) (u : UserParams) : Except RunErr Doc :=
  if has_plugin_conf doc "prebuild_plugins" "check_user_settings" then
    applyOps doc "prebuild_plugins" "check_user_settings"
      [.setValid "flatpak" u.flatpak]
  else .ok doc

/-- `render_flatpak_update_dockerfile`. -/
def render_flatpak_update_dockerfile (doc : Doc) (u : UserParams) : Except RunErr Doc :=
  if has_plugin_conf doc "prebuild_plugins" "flatpak_update_dockerfile" then
    applyOps doc "prebuild_plugins" "flatpak_update_dockerfile"
      [.setValid "compose_ids" u.compose_ids]
  else .ok doc

/-- `render_koji`. -/
def render_koji (doc : Doc) (u : UserParams) : Except RunErr Doc :=
  if has_plugin_conf doc "prebuild_plugins" "koji" then
    applyOps doc "prebuild_plugins" "koji"
      [.setValid "target" u.koji_target]
  else .ok doc

/-- `render_bump_release`. -/
def render_bump_release (doc : Doc) (u : UserParams) : Except RunErr Doc :=
  if has_plugin_conf doc "prebuild_plugins" "bump_release" then
    applyOps doc "prebuild_plugins" "bump_release"
      [.setIf (truthy u.flatpak) "append" (.bool true)]
  else .ok doc

/-- `render_check_and_set_platforms`. -/
def render_check_and_set_platforms (doc : Doc) (u : UserParams) : Except RunErr Doc :=
  if has_plugin_conf doc "prebuild_plugins" "check_and_set_platforms" then
    applyOps doc "prebuild_plugins" "check_and_set_platforms"
      [.setIf (truthy u.koji_target) "koji_target" u.koji_target]
  else .ok doc

/-- `render_import_image` (an exit-phase plugin). -/
def render_import_image (doc : Doc) (u : UserParams) : Except RunErr Doc :=
  if has_plugin_conf doc "exit_plugins" "import_image" then
    applyOps doc "exit_plugins" "import_image"
      [.set "imagestream" u.imagestream_name]
  else .ok doc

/-- `render_inject_parent_image`. -/
def render_inject_parent_image (doc : Doc) (u : UserParams) : Except RunErr Doc :=
  if has_plugin_conf doc "prebuild_plugins" "inject_parent_image" then
    applyOps doc "prebuild_plugins" "inject_parent_image"
      [.setValid "koji_parent_build" u.koji_parent_build]
  else .ok doc

/-- `render_koji_upload`. -/
def render_koji_upload (doc : Doc) (u : UserParams) : Except RunErr Doc :=
  if has_plugin_conf doc "postbuild_plugins" "koji_upload" then
    applyOps doc "postbuild_plugins" "koji_upload"
      [.set "koji_upload_dir" u.koji_upload_dir,
       .set "platform" u.platform,
       .set "report_multiple_digests" (.bool true)]
  else .ok doc

/-- `render_pin_operator_digest`. -/
def render_pin_operator_digest (doc : Doc) (u : UserParams) : Except RunErr Doc :=
  if has_plugin_conf doc "prebuild_plugins" "pin_operator_digest" then
    applyOps doc "prebuild_plugins" "pin_operator_digest"
      [.setIf (truthy u.operator_bundle_replacement_pullspecs)
         "replacement_pullspecs" u.operator_bundle_replacement_pullspecs,
       .setIf (truthy u.operator_csv_modifications_url)
         "operator_csv_modifications_url" u.operator_csv_modifications_url]
  else .ok doc

/-- `render_export_operator_manifests`. -/
def render_export_operator_manifests (doc : Doc) (u : UserParams) : Except RunErr Doc :=
  if has_plugin_conf doc "postbuild_plugins" "export_operator_manifests" then
    applyOps doc "postbuild_plugins" "export_operator_manifests"
      [.set "platform" u.platform,
       .setIf (truthy u.operator_manifests_extract_platform)
         "operator_manifests_extract_platform" u.operator_manifests_extract_platform]
  else .ok doc

/-- `render_koji_tag_build` (an exit-phase plugin). -/
def render_koji_tag_build (doc : Doc) (u : UserParams) : Except RunErr Doc :=
  if has_plugin_conf doc "exit_plugins" "koji_tag_build" then
    applyOps doc "exit_plugins" "koji_tag_build"
      [.setValid "target" u.koji_target]
  else .ok doc

/-- The `worker_params` whitelist of `render_orchestrate_build`. -/
def worker_params : List String :=
  ["component", "git_branch", "git_ref", "git_uri", "koji_task_id",
   "filesystem_koji_task_id", "scratch", "koji_target", "user", "yum_repourls",
   "arrangement_version", "koji_parent_build", "isolated", "reactor_config_map",
   "reactor_config_override", "git_commit_depth"]

/-- The `build_kwargs` block of `render_orchestrate_build`: the
`worker_params` projection, with `koji_target` popped and re-inserted under
the key `target` (defaulting to `None`), and the synthetic `flatpak` flag
appended when the flatpak parameter is truthy. -/
def buildKwargs (u : UserParams) : Args :=
  let bk := to_dict u worker_params
  let tgt := dictPop bk "koji_target" .null
  let bk := assocSet tgt.2 "target" tgt.1
  if truthy u.flatpak then assocSet bk "flatpak" (.bool true) else bk

/-- The `config_kwargs` block of `render_orchestrate_build`: `build_from`
is set unless the buildroot is an imagestream. -/
def configKwargs (u : UserParams) : Args :=
  if truthy u.buildroot_is_imagestream then []
  else [("build_from", .str ("image:" ++ u.build_image))]

/-- `render_orchestrate_build`. -/
def render_orchestrate_build (doc : Doc) (u : UserParams) : Except RunErr Doc :=
  if has_plugin_conf doc "buildstep_plugins" "orchestrate_build" then
    applyOps doc "buildstep_plugins" "orchestrate_build"
      [.setValid "platforms" u.platforms,
       .set "build_kwargs" (.obj (buildKwargs u)),
       .set "config_kwargs" (.obj (configKwargs u))]
  else .ok doc

/-- `render_resolve_composes`. -/
def render_resolve_composes (doc : Doc) (u : UserParams) : Except RunErr Doc :=
  if has_plugin_conf doc "prebuild_plugins" "resolve_composes" then
    applyOps doc "prebuild_plugins" "resolve_composes"
      [.setValid "compose_ids" u.compose_ids,
       .setValid "signing_intent" u.signing_intent,
       .setValid "koji_target" u.koji_target,
       .setValid "repourls" u.yum_repourls]
  else .ok doc

/-- The `tag_suffixes` value computed by `render_tag_from_config`:
`unique` always holds the part of `image_tag` after its last colon;
`primary`/`floating` are filled only for the orchestrator build type, by
the first matching branch of scratch / isolated / tags-from-yaml /
default. -/
def tagSuffixes (u : UserParams) : JVal :=
  let unique_tag := (u.image_tag.splitOn ":").getLastD ""
  let pf : List String × List String :=
    if u.build_type = BUILD_TYPE_ORCHESTRATOR then
      if truthy u.scratch then ([], [])
      else if truthy u.isolated then (["{version}-{release}"], [])
      else if truthy u.tags_from_yaml then
        (["{version}-{release}"], u.additional_tags)
      else
        (["{version}-{release}"], ["latest", "{version}"] ++ u.additional_tags)
    else ([], [])
  .obj [("unique", .arr [.str unique_tag]),
        ("primary", .arr (pf.1.map .str)),
        ("floating", .arr (pf.2.map .str))]

/-- `render_tag_from_config`. -/
def render_tag_from_config (doc : Doc) (u : UserParams) : Except RunErr Doc :=
  if has_plugin_conf doc "postbuild_plugins" "tag_from_config" then
    applyOps doc "postbuild_plugins" "tag_from_config"
      [.set "tag_suffixes" (tagSuffixes u)]
  else .ok doc

/-- `render_pull_base_image`: the one rule with no presence guard — when
`parent_images_digests` is set it calls `set_plugin_arg` directly. -/
def render_pull_base_image (doc : Doc) (u : UserParams) : Except RunErr Doc :=
  applyOps doc "prebuild_plugins" "pull_base_image"
    [.setIf (truthy u.parent_images_digests)
       "parent_images_digests" u.parent_images_digests]

/-- `render_koji_delegate`. -/
def render_koji_delegate (doc : Doc) (u : UserParams) : Except RunErr Doc :=
  if has_plugin_conf doc "prebuild_plugins" "koji_delegate" then
    applyOps doc "prebuild_plugins" "koji_delegate"
      [.setIf (truthy u.triggered_after_koji_task)
         "triggered_after_koji_task" u.triggered_after_koji_task]
  else .ok doc

/-- `render_tag_and_push`. -/
def render_tag_and_push (doc : Doc) (u : UserParams) : Except RunErr Doc :=
  if has_plugin_conf doc "postbuild_plugins" "tag_and_push" then
    applyOps doc "postbuild_plugins" "tag_and_push"
      [.setIf (truthy u.koji_target) "koji_target" u.koji_target]
  else .ok doc

/-- `render_fetch_sources`. -/
def render_fetch_sources (doc : Doc) (u : UserParams) : Except RunErr Doc :=
  if has_plugin_conf doc "prebuild_plugins" "fetch_sources" then
    applyOps doc "prebuild_plugins" "fetch_sources"
      [.setIf (truthy u.sources_for_koji_build_nvr)
         "koji_build_nvr" u.sources_for_koji_build_nvr,
       .setIf (truthy u.sources_for_koji_build_id)
         "koji_build_id" u.sources_for_koji_build_id,
       .setIf (truthy u.signing_intent) "signing_intent" u.signing_intent]
  else .ok doc

/-- `render_download_remote_source`. -/
def render_download_remote_source (doc : Doc) (u : UserParams) : Except RunErr Doc :=
  if has_plugin_conf doc "prebuild_plugins" "download_remote_source" then
    applyOps doc "prebuild_plugins" "download_remote_source"
      [.set "remote_sources" u.remote_sources]
  else .ok doc

/-- `render_resolve_remote_source`. -/
def render_resolve_remote_source (doc : Doc) (u : UserParams) : Except RunErr Doc :=
  if has_plugin_conf doc "prebuild_plugins" "resolve_remote_source" then
    applyOps doc "prebuild_plugins" "resolve_remote_source"
      [.setValid "dependency_replacements" u.dependency_replacements]
  else .ok doc

/-! ## The two renderers -/

/-- The ordered rule list of `PluginsConfiguration.render` (everything
after the customization pass). -/
def imageRules : List (Doc → UserParams → Except RunErr Doc) :=
  [render_add_filesystem,
   render_add_labels_in_dockerfile,
   render_add_yum_repo_by_url,
   render_bump_release,
   render_check_and_set_platforms,
   render_check_user_settings,
   render_flatpak_update_dockerfile,
   render_import_image,
   render_inject_parent_image,
   render_koji,
   render_koji_tag_build,
   render_koji_upload,
   render_pin_operator_digest,
   render_export_operator_manifests,
   render_orchestrate_build,
   render_pull_base_image,
   render_resolve_composes,
   render_tag_from_config,
   render_koji_delegate,
   render_download_remote_source,
   render_resolve_remote_source,
   render_add_image_content_manifest]

/-- The ordered rule list of `SourceContainerPluginsConfiguration.render`. -/
def sourceRules : List (Doc → UserParams → Except RunErr Doc) :=
  [render_fetch_sources,
   render_koji,
   render_koji_tag_build,
   render_tag_and_push]

/-- Run a renderer's rule list in order, an uncaught exception aborting. -/
def runRules (rules : List (Doc → UserParams → Except RunErr Doc))
    (doc : Doc) (u : UserParams) : Except RunErr Doc :=
  match rules with
  | [] => .ok doc
  | r :: rest =>
    match r doc u with
    | .error e => .error e
    | .ok d => runRules rest d u

/-- What the template file gives when first accessed: an unopenable file,
content that is not valid JSON, or a parsed document.  (The property is
lazy and memoized in the code; one render call observes exactly one of
these outcomes.) -/
inductive LoadOutcome where
  | openFail : LoadOutcome
  | parseFail : LoadOutcome
  | ok (d : Doc) : LoadOutcome

/-- The errors a render call can end with. -/
inductive RenderErr where
  | validation : RenderErr
  | templateOpen : RenderErr
  | templateParse : RenderErr
  | runtime (e : RunErr) : RenderErr
  deriving Repr, DecidableEq

/-- `PluginsTemplate.template`: an `IOError`/`OSError` while opening is
caught and re-raised as the `OsbsException` "Can't open template"
(`templateOpen`); a `json.load` parse failure (`ValueError`) is *not*
caught there and propagates raw (`templateParse`). -/
def loadTemplate : LoadOutcome → Except RenderErr Doc
  | .openFail => .error .templateOpen
  | .parseFail => .error .templateParse
  | .ok d => .ok d

/-- `PluginsConfiguration.pt_path`: `"{build_type}_inner:{version}.json"`. -/
def PluginsConfiguration_pt_path (u : UserParams) : String :=
  u.build_type ++ "_inner:" ++ toString u.arrangement_version ++ ".json"

/-- `SourceContainerPluginsConfiguration.pt_path`:
`"orchestrator_sources_inner:{version}.json"`. -/
def SourceContainerPluginsConfiguration_pt_path (u : UserParams) : String :=
  "orchestrator_sources_inner:" ++ toString u.arrangement_version ++ ".json"

/-- `PluginsConfiguration.render` up to serialization: validate, load the
template (lazily in the code, so its failure surfaces at the first
template access — before any mutation, since without a loaded document
there is nothing to mutate), apply the customization pass, then the image
rule list.  The resulting document is returned in place of its
`json.dumps` serialization. -/
def PluginsConfiguration_render (tmpl : LoadOutcome) (conf : CustomizeConf)
    (u : UserParams) : Except RenderErr Doc :=
  if u.validate_ok then
    match loadTemplate tmpl with
    | .error e => .error e
    | .ok doc =>
      match runRules imageRules (render_customizations doc conf).1 u with
      | .error e => .error (.runtime e)
      | .ok d => .ok d
  else .error .validation

/-- `SourceContainerPluginsConfiguration.render`, analogously. -/
def SourceContainerPluginsConfiguration_render (tmpl : LoadOutcome)
    (conf : CustomizeConf) (u : UserParams) : Except RenderErr Doc :=
  if u.validate_ok then
    match loadTemplate tmpl with
    | .error e => .error e
    | .ok doc =>
      match runRules sourceRules (render_customizations doc conf).1 u with
      | .error e => .error (.runtime e)
      | .ok d => .ok d
  else .error .validation

/-! ## Verification vocabulary -/

/-- How many entries of the phase list carry this plugin name. -/
def countName (ps : List PluginEntry) (n : String) : Nat :=
  (ps.filter (fun p => p.name = n)).length

/-- A rendering rule whose successful runs never change which plugins are
present anywhere in the document. -/
def presPresence (f : Doc → UserParams → Except RunErr Doc) : Prop :=
  ∀ doc u d', f doc u = .ok d' →
    ∀ p n, has_plugin_conf d' p n = has_plugin_conf doc p n

/-- A rendering rule that checks its target's presence first: when the
target is absent it returns the document unchanged, raising nothing. -/
def guardedOn (ph pl : String) (f : Doc → UserParams → Except RunErr Doc) : Prop :=
  ∀ doc u, has_plugin_conf doc ph pl = false → f doc u = .ok doc

/-- Every rendering rule of both rule sets together with its target, except
`render_pull_base_image`, which has no presence guard. -/
def guardedRuleTable :
    List (String × String × (Doc → UserParams → Except RunErr Doc)) :=
  [("prebuild_plugins", "add_filesystem", render_add_filesystem),
   ("prebuild_plugins", "add_image_content_manifest", render_add_image_content_manifest),
   ("prebuild_plugins", "add_labels_in_dockerfile", render_add_labels_in_dockerfile),
   ("prebuild_plugins", "add_yum_repo_by_url", render_add_yum_repo_by_url),
   ("prebuild_plugins", "check_user_settings", render_check_user_settings),
   ("prebuild_plugins", "flatpak_update_dockerfile", render_flatpak_update_dockerfile),
   ("prebuild_plugins", "koji", render_koji),
   ("prebuild_plugins", "bump_release", render_bump_release),
   ("prebuild_plugins", "check_and_set_platforms", render_check_and_set_platforms),
   ("exit_plugins", "import_image", render_import_image),
   ("prebuild_plugins", "inject_parent_image", render_inject_parent_image),
   ("postbuild_plugins", "koji_upload", render_koji_upload),
   ("prebuild_plugins", "pin_operator_digest", render_pin_operator_digest),
   ("postbuild_plugins", "export_operator_manifests", render_export_operator_manifests),
   ("exit_plugins", "koji_tag_build", render_koji_tag_build),
   ("buildstep_plugins", "orchestrate_build", render_orchestrate_build),
   ("prebuild_plugins", "resolve_composes", render_resolve_composes),
   ("postbuild_plugins", "tag_from_config", render_tag_from_config),
   ("prebuild_plugins", "koji_delegate", render_koji_delegate),
   ("postbuild_plugins", "tag_and_push", render_tag_and_push),
   ("prebuild_plugins", "fetch_sources", render_fetch_sources),
   ("prebuild_plugins", "download_remote_source", render_download_remote_source),
   ("prebuild_plugins", "resolve_remote_source", render_resolve_remote_source)]

/-- A fixed user-parameters record for concrete witnesses: everything
unset except the strings the constructors need. -/
def baseParams : UserParams := {
  validate_ok := true
  build_type := "worker"
  image_tag := "myimage:7.1-3"
  build_image := "buildroot:latest"
  arrangement_version := 6
  additional_tags := ["extra"]
  yum_repourls := .null
  filesystem_koji_task_id := .null
  platform := .null
  platforms := .null
  koji_target := .null
  remote_sources := .null
  release := .null
  flatpak := .null
  compose_ids := .null
  imagestream_name := .null
  koji_parent_build := .null
  koji_upload_dir := .null
  operator_bundle_replacement_pullspecs := .null
  operator_csv_modifications_url := .null
  operator_manifests_extract_platform := .null
  signing_intent := .null
  triggered_after_koji_task := .null
  sources_for_koji_build_nvr := .null
  sources_for_koji_build_id := .null
  dependency_replacements := .null
  parent_images_digests := .null
  scratch := .null
  isolated := .null
  tags_from_yaml := .null
  buildroot_is_imagestream := .null
  component := .str "mycomponent"
  git_branch := .null
  git_ref := .null
  git_uri := .null
  koji_task_id := .null
  user := .null
  reactor_config_map := .null
  reactor_config_override := .null
  git_commit_depth := .null }

/-- A small document with all five phases but without `pull_base_image`. -/
def noPullDoc : Doc :=
  [("prebuild_plugins", [{ name := "koji", args := none }]),
   ("buildstep_plugins", []),
   ("prepublish_plugins", []),
   ("postbuild_plugins", []),
   ("exit_plugins", [])]

/-- Parameters requesting parent-image digests (otherwise like
`baseParams`). -/
def digestsParams : UserParams :=
  { baseParams with
      parent_images_digests :=
        .obj [("registry.example/ns/img:1", .obj [])] }

/-- A document with only the `tag_from_config` plugin. -/
def tagDoc : Doc :=
  [("postbuild_plugins", [{ name := "tag_from_config", args := none }])]

/-- `baseParams` with the orchestrator build type. -/
def orchParams : UserParams := { baseParams with build_type := "orchestrator" }

/-- A document with only the `orchestrate_build` plugin. -/
def orchDoc : Doc :=
  [("buildstep_plugins", [{ name := "orchestrate_build", args := none }])]


/-- A document with a three-entry `postbuild_plugins` phase, for exercising
the disable-then-enable position-loss behavior. -/
def c4doc : Doc :=
  [("postbuild_plugins",
    [{ name := "pa", args := none },
     { name := "tag_and_push", args := none },
     { name := "pb", args := none }])]

/-! ## Basic lemmas about the document primitives -/

theorem lookupPhase_setPhase (d : Doc) (ph : String) (qs : List PluginEntry)
    (p : String) :
    lookupPhase (setPhase d ph qs) p =
      if p = ph then (lookupPhase d ph).map (fun _ => qs) else lookupPhase d p := by
  induction d with
  | nil => simp only [setPhase, List.map_nil, lookupPhase]; split <;> rfl
  | cons kv rest ih =>
    obtain ⟨a, b⟩ := kv
    simp only [setPhase, List.map_cons] at ih ⊢
    by_cases h1 : a = ph
    · subst h1
      by_cases h2 : p = a
      · subst h2
        simp [lookupPhase]
      · have h2' : ¬ a = p := fun h => h2 h.symm
        simp [lookupPhase, h2, h2', ih]
    · by_cases h2 : a = p
      · subst h2
        simp [lookupPhase, h1]
      · simp [lookupPhase, h1, h2, ih]

theorem setArgFirst_names (ps : List PluginEntry) (n k : String) (v : JVal) :
    (setArgFirst ps n k v).map PluginEntry.name = ps.map PluginEntry.name := by
  induction ps with
  | nil => rfl
  | cons p rest ih =>
    simp only [setArgFirst]
    by_cases h : p.name = n <;> simp [h, ih]

theorem has_eq_any (doc : Doc) (ph n : String) :
    has_plugin_conf doc ph n =
      ((lookupPhase doc ph).map (fun ps => ps.any (fun e => e.name = n))).getD false := by
  unfold has_plugin_conf get_plugin_conf
  cases hl : lookupPhase doc ph with
  | none => rfl
  | some ps =>
    simp only [Option.map_some', Option.getD_some]
    cases hf : ps.filter (fun x => decide (x.name = n)) with
    | nil =>
      have : ps.any (fun e => decide (e.name = n)) = false := by
        rw [List.any_eq_false]
        intro x hx
        exact List.filter_eq_nil_iff.mp hf x hx
      simp [this]
    | cons c cs =>
      have hc : c ∈ ps.filter (fun x => decide (x.name = n)) := by
        rw [hf]; exact List.mem_cons_self c cs
      have := List.of_mem_filter hc
      have : ps.any (fun e => decide (e.name = n)) = true :=
        List.any_eq_true.mpr ⟨c, List.mem_of_mem_filter hc, this⟩
      simp [this]

theorem has_elim (doc : Doc) (ph n : String) (h : has_plugin_conf doc ph n = true) :
    ∃ ps, lookupPhase doc ph = some ps ∧ ps.any (fun e => e.name = n) = true := by
  rw [has_eq_any] at h
  cases hl : lookupPhase doc ph with
  | none => rw [hl] at h; cases h
  | some ps => rw [hl] at h; exact ⟨ps, rfl, by simpa using h⟩

theorem any_name_of_names_eq (ps qs : List PluginEntry) (n : String)
    (h : ps.map PluginEntry.name = qs.map PluginEntry.name) :
    ps.any (fun e => e.name = n) = qs.any (fun e => e.name = n) := by
  induction ps generalizing qs with
  | nil => cases qs with | nil => rfl | cons q qs => simp at h
  | cons p ps ih =>
    cases qs with
    | nil => simp at h
    | cons q qs =>
      simp only [List.map_cons, List.cons.injEq] at h
      simp [List.any_cons, h.1, ih qs h.2]

theorem get_ok_of_has (doc : Doc) (ph n : String)
    (h : has_plugin_conf doc ph n = true) :
    ∃ c, get_plugin_conf doc ph n = .ok c := by
  unfold has_plugin_conf at h
  cases hg : get_plugin_conf doc ph n with
  | ok c => exact ⟨c, rfl⟩
  | error e => rw [hg] at h; cases h

theorem lookup_map_set (d : Args) (k : String) (v : JVal)
    (h : d.any (fun kv => kv.1 = k) = true) :
    (d.map (fun kv => if kv.1 = k then (kv.1, v) else kv)).lookup k = some v := by
  induction d with
  | nil => cases h
  | cons kv rest ih =>
    obtain ⟨a, b⟩ := kv
    rw [List.map_cons]
    by_cases hk : a = k
    · subst hk
      have hhead : (if ((a, b) : String × JVal).1 = a then (((a, b) : String × JVal).1, v)
          else (a, b)) = (a, v) := by simp
      rw [hhead]
      simp [List.lookup]
    · simp only [List.any_cons, Bool.or_eq_true] at h
      have h' : rest.any (fun kv => kv.1 = k) = true := by
        rcases h with h|h
        · exact absurd (by simpa using h) hk
        · exact h
      have hhead : (if ((a, b) : String × JVal).1 = k then (((a, b) : String × JVal).1, v)
          else (a, b)) = (a, b) := by simp [hk]
      have hka : (k == a) = false := beq_eq_false_iff_ne.mpr (fun hh => hk hh.symm)
      rw [hhead]
      simp [List.lookup, hka, ih h']

theorem lookup_append_single (d : Args) (k : String) (v : JVal)
    (h : d.any (fun kv => kv.1 = k) = false) :
    (d ++ [(k, v)]).lookup k = some v := by
  induction d with
  | nil => simp [List.lookup]
  | cons kv rest ih =>
    obtain ⟨a, b⟩ := kv
    simp only [List.any_cons, Bool.or_eq_false_iff] at h
    have ha : ¬ (k = a) := fun hh => by simp [hh.symm] at h
    have hka : (k == a) = false := beq_eq_false_iff_ne.mpr ha
    simp [List.lookup, hka, ih h.2]

theorem lookup_assocSet_self (d : Args) (k : String) (v : JVal) :
    (assocSet d k v).lookup k = some v := by
  unfold assocSet
  by_cases h : d.any (fun kv => kv.1 = k) = true
  · rw [if_pos h]
    exact lookup_map_set d k v h
  · rw [if_neg h]
    have h' : d.any (fun kv => kv.1 = k) = false := by
      cases hb : d.any (fun kv => kv.1 = k)
      · rfl
      · exact absurd hb h
    exact lookup_append_single d k v h'

theorem lookup_map_set_ne (d : Args) (k k' : String) (v : JVal) (h : ¬ k' = k) :
    (d.map (fun kv => if kv.1 = k then (kv.1, v) else kv)).lookup k' = d.lookup k' := by
  induction d with
  | nil => rfl
  | cons kv rest ih =>
    obtain ⟨a, b⟩ := kv
    rw [List.map_cons]
    by_cases hk : a = k
    · subst hk
      have hhead : (if ((a, b) : String × JVal).1 = a then (((a, b) : String × JVal).1, v)
          else (a, b)) = (a, v) := by simp
      have hne : (k' == a) = false := beq_eq_false_iff_ne.mpr h
      rw [hhead]
      simp [List.lookup, hne, ih]
    · have hhead : (if ((a, b) : String × JVal).1 = k then (((a, b) : String × JVal).1, v)
          else (a, b)) = (a, b) := by simp [hk]
      rw [hhead]
      by_cases hk2 : k' = a
      · subst hk2
        simp [List.lookup]
      · have hne : (k' == a) = false := beq_eq_false_iff_ne.mpr hk2
        simp [List.lookup, hne, ih]

theorem lookup_append_single_ne (d : Args) (k k' : String) (v : JVal)
    (h : ¬ k' = k) :
    (d ++ [(k, v)]).lookup k' = d.lookup k' := by
  induction d with
  | nil =>
    have hne : (k' == k) = false := beq_eq_false_iff_ne.mpr h
    simp [List.lookup, hne]
  | cons kv rest ih =>
    obtain ⟨a, b⟩ := kv
    by_cases hk2 : k' = a
    · subst hk2
      simp [List.lookup]
    · have hne : (k' == a) = false := beq_eq_false_iff_ne.mpr hk2
      simp [List.lookup, hne, ih]

theorem lookup_assocSet_ne (d : Args) (k k' : String) (v : JVal) (h : ¬ k' = k) :
    (assocSet d k v).lookup k' = d.lookup k' := by
  unfold assocSet
  split
  · exact lookup_map_set_ne d k k' v h
  · exact lookup_append_single_ne d k k' v h

theorem filter_setArgFirst (pl k : String) (v : JVal) :
    ∀ (ps : List PluginEntry) (c : PluginEntry) (cs : List PluginEntry),
      ps.filter (fun x => x.name = pl) = c :: cs →
      (setArgFirst ps pl k v).filter (fun x => x.name = pl) =
        { c with args := some (assocSet (c.args.getD []) k v) } :: cs := by
  intro ps
  induction ps with
  | nil => intro c cs h; simp at h
  | cons p rest ih =>
    intro c cs h
    by_cases hp : p.name = pl
    · rw [List.filter_cons_of_pos (by simpa using hp)] at h
      injection h with h1 h2
      subst h1
      simp only [setArgFirst, if_pos hp]
      rw [List.filter_cons_of_pos (by simpa using hp), h2]
    · rw [List.filter_cons_of_neg (by simpa using hp)] at h
      simp only [setArgFirst, if_neg hp]
      rw [List.filter_cons_of_neg (by simpa using hp)]
      exact ih c cs h

theorem set_plugin_arg_present (doc : Doc) (ph pl k : String) (v : JVal)
    (ps : List PluginEntry) (hph : lookupPhase doc ph = some ps)
    (hany : ps.any (fun p => p.name = pl) = true) :
    set_plugin_arg doc ph pl k v = .ok (setPhase doc ph (setArgFirst ps pl k v)) := by
  obtain ⟨c, hc, hcp⟩ := List.any_eq_true.mp hany
  cases hf : ps.filter (fun x => decide (x.name = pl)) with
  | nil => exact absurd (List.filter_eq_nil_iff.mp hf c hc) (by simpa using hcp)
  | cons d ds =>
    simp [set_plugin_arg, get_plugin_conf_or_fail, get_plugin_conf, hph, hf]

theorem set_plugin_arg_ok_shape (doc : Doc) (ph pl k : String) (v : JVal) (d' : Doc)
    (h : set_plugin_arg doc ph pl k v = .ok d') :
    ∃ ps, lookupPhase doc ph = some ps ∧ ps.any (fun p => p.name = pl) = true ∧
      d' = setPhase doc ph (setArgFirst ps pl k v) := by
  cases hph : lookupPhase doc ph with
  | none => simp [set_plugin_arg, get_plugin_conf_or_fail, get_plugin_conf, hph] at h
  | some ps =>
    cases hf : ps.filter (fun x => decide (x.name = pl)) with
    | nil =>
      simp [set_plugin_arg, get_plugin_conf_or_fail, get_plugin_conf, hph, hf] at h
    | cons c cs =>
      have hc : c ∈ ps.filter (fun x => decide (x.name = pl)) := by
        rw [hf]; exact List.mem_cons_self c cs
      have hc1 : c ∈ ps := List.mem_of_mem_filter hc
      have hc2 := List.of_mem_filter (p := fun x : PluginEntry => decide (x.name = pl)) hc
      have hany : ps.any (fun e => decide (e.name = pl)) = true :=
        List.any_eq_true.mpr ⟨c, hc1, hc2⟩
      refine ⟨ps, rfl, by simpa using hany, ?_⟩
      simp [set_plugin_arg, get_plugin_conf_or_fail, get_plugin_conf, hph, hf] at h
      exact h.symm

theorem get_after_set (doc : Doc) (ph pl k : String) (v : JVal) (d' : Doc)
    (h : set_plugin_arg doc ph pl k v = .ok d') (c : PluginEntry)
    (hc : get_plugin_conf doc ph pl = .ok c) :
    get_plugin_conf d' ph pl =
      .ok { c with args := some (assocSet (c.args.getD []) k v) } := by
  obtain ⟨ps, hph, hany, rfl⟩ := set_plugin_arg_ok_shape doc ph pl k v d' h
  unfold get_plugin_conf at hc
  simp only [hph] at hc
  cases hf : ps.filter (fun x => decide (x.name = pl)) with
  | nil => simp only [hf] at hc; cases hc
  | cons c0 cs =>
    simp only [hf] at hc
    simp only [Except.ok.injEq] at hc
    subst hc
    have hft := filter_setArgFirst pl k v ps c0 cs hf
    unfold get_plugin_conf
    rw [lookupPhase_setPhase, if_pos rfl, hph]
    simp only [Option.map_some', hft]

theorem set_plugin_arg_presence (doc : Doc) (ph pl k : String) (v : JVal) (d' : Doc)
    (h : set_plugin_arg doc ph pl k v = .ok d') (p n : String) :
    has_plugin_conf d' p n = has_plugin_conf doc p n := by
  obtain ⟨ps, hph, hany, rfl⟩ := set_plugin_arg_ok_shape doc ph pl k v d' h
  rw [has_eq_any, has_eq_any, lookupPhase_setPhase]
  by_cases hp : p = ph
  · subst hp
    rw [if_pos rfl, hph]
    simp only [Option.map_some', Option.getD_some]
    exact any_name_of_names_eq _ _ n (setArgFirst_names ps pl k v)
  · rw [if_neg hp]

theorem set_plugin_arg_ok_of_has (doc : Doc) (ph pl k : String) (v : JVal)
    (h : has_plugin_conf doc ph pl = true) :
    ∃ d', set_plugin_arg doc ph pl k v = .ok d' := by
  obtain ⟨ps, hph, hany⟩ := has_elim doc ph pl h
  exact ⟨_, set_plugin_arg_present doc ph pl k v ps hph hany⟩

theorem set_plugin_arg_valid_ok (doc : Doc) (ph pl k : String) (v : JVal)
    (d' : Doc) (b : Bool) (h : set_plugin_arg_valid doc ph pl k v = .ok (d', b)) :
    (v = .null ∧ d' = doc ∧ b = false) ∨
      (set_plugin_arg doc ph pl k v = .ok d' ∧ b = true) := by
  cases v with
  | null =>
    simp only [set_plugin_arg_valid, Except.ok.injEq, Prod.mk.injEq] at h
    exact .inl ⟨rfl, h.1.symm, h.2.symm⟩
  | bool x =>
    simp only [set_plugin_arg_valid] at h
    cases hs : set_plugin_arg doc ph pl k (.bool x) with
    | error e => rw [hs] at h; cases h
    | ok d =>
      rw [hs] at h
      simp only [Except.ok.injEq, Prod.mk.injEq] at h
      obtain ⟨hd, hb⟩ := h
      subst hd
      exact .inr ⟨rfl, hb.symm⟩
  | num x =>
    simp only [set_plugin_arg_valid] at h
    cases hs : set_plugin_arg doc ph pl k (.num x) with
    | error e => rw [hs] at h; cases h
    | ok d =>
      rw [hs] at h
      simp only [Except.ok.injEq, Prod.mk.injEq] at h
      obtain ⟨hd, hb⟩ := h
      subst hd
      exact .inr ⟨rfl, hb.symm⟩
  | str x =>
    simp only [set_plugin_arg_valid] at h
    cases hs : set_plugin_arg doc ph pl k (.str x) with
    | error e => rw [hs] at h; cases h
    | ok d =>
      rw [hs] at h
      simp only [Except.ok.injEq, Prod.mk.injEq] at h
      obtain ⟨hd, hb⟩ := h
      subst hd
      exact .inr ⟨rfl, hb.symm⟩
  | arr x =>
    simp only [set_plugin_arg_valid] at h
    cases hs : set_plugin_arg doc ph pl k (.arr x) with
    | error e => rw [hs] at h; cases h
    | ok d =>
      rw [hs] at h
      simp only [Except.ok.injEq, Prod.mk.injEq] at h
      obtain ⟨hd, hb⟩ := h
      subst hd
      exact .inr ⟨rfl, hb.symm⟩
  | obj x =>
    simp only [set_plugin_arg_valid] at h
    cases hs : set_plugin_arg doc ph pl k (.obj x) with
    | error e => rw [hs] at h; cases h
    | ok d =>
      rw [hs] at h
      simp only [Except.ok.injEq, Prod.mk.injEq] at h
      obtain ⟨hd, hb⟩ := h
      subst hd
      exact .inr ⟨rfl, hb.symm⟩

theorem applyOp_presence (doc : Doc) (ph pl : String) (op : ArgOp) (d' : Doc)
    (h : applyOp doc ph pl op = .ok d') (p n : String) :
    has_plugin_conf d' p n = has_plugin_conf doc p n := by
  cases op with
  | set k v => exact set_plugin_arg_presence doc ph pl k v d' h p n
  | setValid k v =>
    simp only [applyOp] at h
    cases hs : set_plugin_arg_valid doc ph pl k v with
    | error e => rw [hs] at h; cases h
    | ok pr =>
      obtain ⟨d0, b0⟩ := pr
      rw [hs] at h
      simp at h
      subst h
      rcases set_plugin_arg_valid_ok doc ph pl k v d0 b0 hs with ⟨_, rfl, _⟩ | ⟨hset, _⟩
      · rfl
      · exact set_plugin_arg_presence doc ph pl k v d0 hset p n
  | setIf c k v =>
    simp only [applyOp] at h
    cases c with
    | true => simp at h; exact set_plugin_arg_presence doc ph pl k v d' h p n
    | false => simp at h; rw [h]

theorem applyOps_presence (ph pl : String) :
    ∀ (ops : List ArgOp) (doc d' : Doc),
      applyOps doc ph pl ops = .ok d' →
      ∀ p n, has_plugin_conf d' p n = has_plugin_conf doc p n := by
  intro ops
  induction ops with
  | nil =>
    intro doc d' h p n
    simp [applyOps] at h
    rw [h]
  | cons op rest ih =>
    intro doc d' h p n
    simp only [applyOps] at h
    cases ha : applyOp doc ph pl op with
    | error e => rw [ha] at h; cases h
    | ok d1 =>
      rw [ha] at h
      rw [ih d1 d' h p n, applyOp_presence doc ph pl op d1 ha p n]

theorem applyOp_ok_of_has (doc : Doc) (ph pl : String) (op : ArgOp)
    (h : has_plugin_conf doc ph pl = true) :
    ∃ d', applyOp doc ph pl op = .ok d' := by
  cases op with
  | set k v => exact set_plugin_arg_ok_of_has doc ph pl k v h
  | setValid k v =>
    cases v with
    | null => exact ⟨doc, rfl⟩
    | bool x =>
      obtain ⟨d, hd⟩ := set_plugin_arg_ok_of_has doc ph pl k (.bool x) h
      exact ⟨d, by simp [applyOp, set_plugin_arg_valid, hd]⟩
    | num x =>
      obtain ⟨d, hd⟩ := set_plugin_arg_ok_of_has doc ph pl k (.num x) h
      exact ⟨d, by simp [applyOp, set_plugin_arg_valid, hd]⟩
    | str x =>
      obtain ⟨d, hd⟩ := set_plugin_arg_ok_of_has doc ph pl k (.str x) h
      exact ⟨d, by simp [applyOp, set_plugin_arg_valid, hd]⟩
    | arr x =>
      obtain ⟨d, hd⟩ := set_plugin_arg_ok_of_has doc ph pl k (.arr x) h
      exact ⟨d, by simp [applyOp, set_plugin_arg_valid, hd]⟩
    | obj x =>
      obtain ⟨d, hd⟩ := set_plugin_arg_ok_of_has doc ph pl k (.obj x) h
      exact ⟨d, by simp [applyOp, set_plugin_arg_valid, hd]⟩
  | setIf c k v =>
    cases c with
    | true =>
      obtain ⟨d, hd⟩ := set_plugin_arg_ok_of_has doc ph pl k v h
      exact ⟨d, by simp [applyOp, hd]⟩
    | false => exact ⟨doc, by simp [applyOp]⟩

theorem applyOps_ok_of_has (ph pl : String) :
    ∀ (ops : List ArgOp) (doc : Doc), has_plugin_conf doc ph pl = true →
      ∃ d', applyOps doc ph pl ops = .ok d' := by
  intro ops
  induction ops with
  | nil => exact fun doc _ => ⟨doc, rfl⟩
  | cons op rest ih =>
    intro doc h
    obtain ⟨d1, hd1⟩ := applyOp_ok_of_has doc ph pl op h
    have h1 : has_plugin_conf d1 ph pl = true := by
      rw [applyOp_presence doc ph pl op d1 hd1 ph pl]; exact h
    obtain ⟨d', hd'⟩ := ih d1 h1
    exact ⟨d', by simp [applyOps, hd1, hd']⟩

theorem runRules_presence :
    ∀ (rules : List (Doc → UserParams → Except RunErr Doc)),
      (∀ r ∈ rules, presPresence r) →
      ∀ doc u d', runRules rules doc u = .ok d' →
      ∀ p n, has_plugin_conf d' p n = has_plugin_conf doc p n := by
  intro rules
  induction rules with
  | nil =>
    intro _ doc u d' h p n
    simp [runRules] at h
    rw [h]
  | cons r rest ih =>
    intro hall doc u d' h p n
    simp only [runRules] at h
    cases hr : r doc u with
    | error e => rw [hr] at h; cases h
    | ok d1 =>
      rw [hr] at h
      have h1 := hall r (List.mem_cons_self r rest) doc u d1 hr p n
      have h2 := ih (fun g hg => hall g (List.mem_cons_of_mem r hg)) d1 u d' h p n
      rw [h2, h1]

theorem render_add_filesystem_guarded : guardedOn "prebuild_plugins" "add_filesystem" render_add_filesystem := by
  intro doc u h
  simp [render_add_filesystem, h]

theorem render_add_image_content_manifest_guarded : guardedOn "prebuild_plugins" "add_image_content_manifest" render_add_image_content_manifest := by
  intro doc u h
  simp [render_add_image_content_manifest, h]

theorem render_add_labels_in_dockerfile_guarded : guardedOn "prebuild_plugins" "add_labels_in_dockerfile" render_add_labels_in_dockerfile := by
  intro doc u h
  simp [render_add_labels_in_dockerfile, h]

theorem render_add_yum_repo_by_url_guarded : guardedOn "prebuild_plugins" "add_yum_repo_by_url" render_add_yum_repo_by_url := by
  intro doc u h
  simp [render_add_yum_repo_by_url, h]

theorem render_check_user_settings_guarded : guardedOn "prebuild_plugins" "check_user_settings" render_check_user_settings := by
  intro doc u h
  simp [render_check_user_settings, h]

theorem render_flatpak_update_dockerfile_guarded : guardedOn "prebuild_plugins" "flatpak_update_dockerfile" render_flatpak_update_dockerfile := by
  intro doc u h
  simp [render_flatpak_update_dockerfile, h]

theorem render_koji_guarded : guardedOn "prebuild_plugins" "koji" render_koji := by
  intro doc u h
  simp [render_koji, h]

theorem render_bump_release_guarded : guardedOn "prebuild_plugins" "bump_release" render_bump_release := by
  intro doc u h
  simp [render_bump_release, h]

theorem render_check_and_set_platforms_guarded : guardedOn "prebuild_plugins" "check_and_set_platforms" render_check_and_set_platforms := by
  intro doc u h
  simp [render_check_and_set_platforms, h]

theorem render_import_image_guarded : guardedOn "exit_plugins" "import_image" render_import_image := by
  intro doc u h
  simp [render_import_image, h]

theorem render_inject_parent_image_guarded : guardedOn "prebuild_plugins" "inject_parent_image" render_inject_parent_image := by
  intro doc u h
  simp [render_inject_parent_image, h]

theorem render_koji_upload_guarded : guardedOn "postbuild_plugins" "koji_upload" render_koji_upload := by
  intro doc u h
  simp [render_koji_upload, h]

theorem render_pin_operator_digest_guarded : guardedOn "prebuild_plugins" "pin_operator_digest" render_pin_operator_digest := by
  intro doc u h
  simp [render_pin_operator_digest, h]

theorem render_export_operator_manifests_guarded : guardedOn "postbuild_plugins" "export_operator_manifests" render_export_operator_manifests := by
  intro doc u h
  simp [render_export_operator_manifests, h]

theorem render_koji_tag_build_guarded : guardedOn "exit_plugins" "koji_tag_build" render_koji_tag_build := by
  intro doc u h
  simp [render_koji_tag_build, h]

theorem render_orchestrate_build_guarded : guardedOn "buildstep_plugins" "orchestrate_build" render_orchestrate_build := by
  intro doc u h
  simp [render_orchestrate_build, h]

theorem render_resolve_composes_guarded : guardedOn "prebuild_plugins" "resolve_composes" render_resolve_composes := by
  intro doc u h
  simp [render_resolve_composes, h]

theorem render_tag_from_config_guarded : guardedOn "postbuild_plugins" "tag_from_config" render_tag_from_config := by
  intro doc u h
  simp [render_tag_from_config, h]

theorem render_koji_delegate_guarded : guardedOn "prebuild_plugins" "koji_delegate" render_koji_delegate := by
  intro doc u h
  simp [render_koji_delegate, h]

theorem render_tag_and_push_guarded : guardedOn "postbuild_plugins" "tag_and_push" render_tag_and_push := by
  intro doc u h
  simp [render_tag_and_push, h]

theorem render_fetch_sources_guarded : guardedOn "prebuild_plugins" "fetch_sources" render_fetch_sources := by
  intro doc u h
  simp [render_fetch_sources, h]

theorem render_download_remote_source_guarded : guardedOn "prebuild_plugins" "download_remote_source" render_download_remote_source := by
  intro doc u h
  simp [render_download_remote_source, h]

theorem render_resolve_remote_source_guarded : guardedOn "prebuild_plugins" "resolve_remote_source" render_resolve_remote_source := by
  intro doc u h
  simp [render_resolve_remote_source, h]

theorem render_add_filesystem_presence : presPresence render_add_filesystem := by
  intro doc u d' h p n
  unfold render_add_filesystem at h
  split at h
  · exact applyOps_presence _ _ _ doc d' h p n
  · injection h with h2
    rw [← h2]

theorem render_add_image_content_manifest_presence : presPresence render_add_image_content_manifest := by
  intro doc u d' h p n
  unfold render_add_image_content_manifest at h
  split at h
  · exact applyOps_presence _ _ _ doc d' h p n
  · injection h with h2
    rw [← h2]

theorem render_add_labels_in_dockerfile_presence : presPresence render_add_labels_in_dockerfile := by
  intro doc u d' h p n
  unfold render_add_labels_in_dockerfile at h
  split at h
  · exact applyOps_presence _ _ _ doc d' h p n
  · injection h with h2
    rw [← h2]

theorem render_add_yum_repo_by_url_presence : presPresence render_add_yum_repo_by_url := by
  intro doc u d' h p n
  unfold render_add_yum_repo_by_url at h
  split at h
  · exact applyOps_presence _ _ _ doc d' h p n
  · injection h with h2
    rw [← h2]

theorem render_check_user_settings_presence : presPresence render_check_user_settings := by
  intro doc u d' h p n
  unfold render_check_user_settings at h
  split at h
  · exact applyOps_presence _ _ _ doc d' h p n
  · injection h with h2
    rw [← h2]

theorem render_flatpak_update_dockerfile_presence : presPresence render_flatpak_update_dockerfile := by
  intro doc u d' h p n
  unfold render_flatpak_update_dockerfile at h
  split at h
  · exact applyOps_presence _ _ _ doc d' h p n
  · injection h with h2
    rw [← h2]

theorem render_koji_presence : presPresence render_koji := by
  intro doc u d' h p n
  unfold render_koji at h
  split at h
  · exact applyOps_presence _ _ _ doc d' h p n
  · injection h with h2
    rw [← h2]

theorem render_bump_release_presence : presPresence render_bump_release := by
  intro doc u d' h p n
  unfold render_bump_release at h
  split at h
  · exact applyOps_presence _ _ _ doc d' h p n
  · injection h with h2
    rw [← h2]

theorem render_check_and_set_platforms_presence : presPresence render_check_and_set_platforms := by
  intro doc u d' h p n
  unfold render_check_and_set_platforms at h
  split at h
  · exact applyOps_presence _ _ _ doc d' h p n
  · injection h with h2
    rw [← h2]

theorem render_import_image_presence : presPresence render_import_image := by
  intro doc u d' h p n
  unfold render_import_image at h
  split at h
  · exact applyOps_presence _ _ _ doc d' h p n
  · injection h with h2
    rw [← h2]

theorem render_inject_parent_image_presence : presPresence render_inject_parent_image := by
  intro doc u d' h p n
  unfold render_inject_parent_image at h
  split at h
  · exact applyOps_presence _ _ _ doc d' h p n
  · injection h with h2
    rw [← h2]

theorem render_koji_upload_presence : presPresence render_koji_upload := by
  intro doc u d' h p n
  unfold render_koji_upload at h
  split at h
  · exact applyOps_presence _ _ _ doc d' h p n
  · injection h with h2
    rw [← h2]

theorem render_pin_operator_digest_presence : presPresence render_pin_operator_digest := by
  intro doc u d' h p n
  unfold render_pin_operator_digest at h
  split at h
  · exact applyOps_presence _ _ _ doc d' h p n
  · injection h with h2
    rw [← h2]

theorem render_export_operator_manifests_presence : presPresence render_export_operator_manifests := by
  intro doc u d' h p n
  unfold render_export_operator_manifests at h
  split at h
  · exact applyOps_presence _ _ _ doc d' h p n
  · injection h with h2
    rw [← h2]

theorem render_koji_tag_build_presence : presPresence render_koji_tag_build := by
  intro doc u d' h p n
  unfold render_koji_tag_build at h
  split at h
  · exact applyOps_presence _ _ _ doc d' h p n
  · injection h with h2
    rw [← h2]

theorem render_orchestrate_build_presence : presPresence render_orchestrate_build := by
  intro doc u d' h p n
  unfold render_orchestrate_build at h
  split at h
  · exact applyOps_presence _ _ _ doc d' h p n
  · injection h with h2
    rw [← h2]

theorem render_resolve_composes_presence : presPresence render_resolve_composes := by
  intro doc u d' h p n
  unfold render_resolve_composes at h
  split at h
  · exact applyOps_presence _ _ _ doc d' h p n
  · injection h with h2
    rw [← h2]

theorem render_tag_from_config_presence : presPresence render_tag_from_config := by
  intro doc u d' h p n
  unfold render_tag_from_config at h
  split at h
  · exact applyOps_presence _ _ _ doc d' h p n
  · injection h with h2
    rw [← h2]

theorem render_koji_delegate_presence : presPresence render_koji_delegate := by
  intro doc u d' h p n
  unfold render_koji_delegate at h
  split at h
  · exact applyOps_presence _ _ _ doc d' h p n
  · injection h with h2
    rw [← h2]

theorem render_tag_and_push_presence : presPresence render_tag_and_push := by
  intro doc u d' h p n
  unfold render_tag_and_push at h
  split at h
  · exact applyOps_presence _ _ _ doc d' h p n
  · injection h with h2
    rw [← h2]

theorem render_fetch_sources_presence : presPresence render_fetch_sources := by
  intro doc u d' h p n
  unfold render_fetch_sources at h
  split at h
  · exact applyOps_presence _ _ _ doc d' h p n
  · injection h with h2
    rw [← h2]

theorem render_download_remote_source_presence : presPresence render_download_remote_source := by
  intro doc u d' h p n
  unfold render_download_remote_source at h
  split at h
  · exact applyOps_presence _ _ _ doc d' h p n
  · injection h with h2
    rw [← h2]

theorem render_resolve_remote_source_presence : presPresence render_resolve_remote_source := by
  intro doc u d' h p n
  unfold render_resolve_remote_source at h
  split at h
  · exact applyOps_presence _ _ _ doc d' h p n
  · injection h with h2
    rw [← h2]

theorem render_pull_base_image_presence : presPresence render_pull_base_image := by
  intro doc u d' h p n
  unfold render_pull_base_image at h
  exact applyOps_presence _ _ _ doc d' h p n

theorem guardedRuleTable_guarded :
    ∀ t ∈ guardedRuleTable, guardedOn t.1 t.2.1 t.2.2 := by
  intro t ht
  simp only [guardedRuleTable, List.mem_cons, List.not_mem_nil, or_false] at ht
  rcases ht with rfl|rfl|rfl|rfl|rfl|rfl|rfl|rfl|rfl|rfl|rfl|rfl|rfl|rfl|rfl|rfl|rfl|rfl|rfl|rfl|rfl|rfl|rfl
  all_goals
    first
      | exact render_add_filesystem_guarded
      | exact render_add_image_content_manifest_guarded
      | exact render_add_labels_in_dockerfile_guarded
      | exact render_add_yum_repo_by_url_guarded
      | exact render_check_user_settings_guarded
      | exact render_flatpak_update_dockerfile_guarded
      | exact render_koji_guarded
      | exact render_bump_release_guarded
      | exact render_check_and_set_platforms_guarded
      | exact render_import_image_guarded
      | exact render_inject_parent_image_guarded
      | exact render_koji_upload_guarded
      | exact render_pin_operator_digest_guarded
      | exact render_export_operator_manifests_guarded
      | exact render_koji_tag_build_guarded
      | exact render_orchestrate_build_guarded
      | exact render_resolve_composes_guarded
      | exact render_tag_from_config_guarded
      | exact render_koji_delegate_guarded
      | exact render_tag_and_push_guarded
      | exact render_fetch_sources_guarded
      | exact render_download_remote_source_guarded
      | exact render_resolve_remote_source_guarded

theorem imageRules_presence : ∀ f ∈ imageRules, presPresence f := by
  intro f hf
  simp only [imageRules, List.mem_cons, List.not_mem_nil, or_false] at hf
  rcases hf with rfl|rfl|rfl|rfl|rfl|rfl|rfl|rfl|rfl|rfl|rfl|rfl|rfl|rfl|rfl|rfl|rfl|rfl|rfl|rfl|rfl|rfl
  all_goals
    first
      | exact render_add_filesystem_presence
      | exact render_add_image_content_manifest_presence
      | exact render_add_labels_in_dockerfile_presence
      | exact render_add_yum_repo_by_url_presence
      | exact render_check_user_settings_presence
      | exact render_flatpak_update_dockerfile_presence
      | exact render_koji_presence
      | exact render_bump_release_presence
      | exact render_check_and_set_platforms_presence
      | exact render_import_image_presence
      | exact render_inject_parent_image_presence
      | exact render_koji_upload_presence
      | exact render_pin_operator_digest_presence
      | exact render_export_operator_manifests_presence
      | exact render_koji_tag_build_presence
      | exact render_orchestrate_build_presence
      | exact render_resolve_composes_presence
      | exact render_tag_from_config_presence
      | exact render_koji_delegate_presence
      | exact render_tag_and_push_presence
      | exact render_fetch_sources_presence
      | exact render_download_remote_source_presence
      | exact render_resolve_remote_source_presence
      | exact render_pull_base_image_presence

theorem sourceRules_presence : ∀ f ∈ sourceRules, presPresence f := by
  intro f hf
  simp only [sourceRules, List.mem_cons, List.not_mem_nil, or_false] at hf
  rcases hf with rfl|rfl|rfl|rfl
  all_goals
    first
      | exact render_fetch_sources_presence
      | exact render_koji_presence
      | exact render_koji_tag_build_presence
      | exact render_tag_and_push_presence

/-- C2, counterexample: `render_pull_base_image` does not first check that
its targeted plugin is present — on a document whose `prebuild_plugins`
phase lacks `pull_base_image`, with `parent_images_digests` set, the rule
raises the `no such plugin in template` error instead of leaving the
document unchanged, and the whole render fails with it. -/
theorem render_pull_base_image_unguarded_cex :
    render_pull_base_image noPullDoc digestsParams =
      .error (.noSuchPlugin "pull_base_image") ∧
    PluginsConfiguration_render (.ok noPullDoc) ⟨[], []⟩ digestsParams =
      .error (.runtime (.noSuchPlugin "pull_base_image")) :=
  ⟨rfl, rfl⟩

/-- C2 (amended): every rendering rule of both rule sets except
`render_pull_base_image` first checks that its targeted plugin is present
and leaves the document unchanged (no error) when it is absent;
`render_pull_base_image` is a no-op only when `parent_images_digests` is
unset.  No rule adds or removes plugin presence: every rule of both rule
lists, and each full rule list, preserves `has_plugin_conf` at every
`(phase, name)` whenever it succeeds. -/
theorem rules_guarded_and_presence_preserved :
    (∀ t ∈ guardedRuleTable, guardedOn t.1 t.2.1 t.2.2) ∧
    (∀ u, truthy u.parent_images_digests = false →
      ∀ doc, render_pull_base_image doc u = .ok doc) ∧
    (∀ f ∈ imageRules, presPresence f) ∧
    (∀ f ∈ sourceRules, presPresence f) ∧
    (∀ doc u d', runRules imageRules doc u = .ok d' →
      ∀ p n, has_plugin_conf d' p n = has_plugin_conf doc p n) ∧
    (∀ doc u d', runRules sourceRules doc u = .ok d' →
      ∀ p n, has_plugin_conf d' p n = has_plugin_conf doc p n) := by
  refine ⟨guardedRuleTable_guarded, ?_, imageRules_presence, sourceRules_presence, ?_, ?_⟩
  · intro u hu doc
    simp [render_pull_base_image, applyOps, applyOp, hu]
  · exact runRules_presence imageRules imageRules_presence
  · exact runRules_presence sourceRules sourceRules_presence

/-- C2, witness: the amended theorem applied to a concrete guarded rule on
a document missing its plugin, and to the unguarded rule with digests
unset. -/
theorem rules_guarded_and_presence_preserved_witness :
    render_add_filesystem noPullDoc baseParams = .ok noPullDoc ∧
    render_pull_base_image noPullDoc baseParams = .ok noPullDoc :=
  ⟨rules_guarded_and_presence_preserved.1
      ("prebuild_plugins", "add_filesystem", render_add_filesystem)
      (by unfold guardedRuleTable; exact List.Mem.head _)
      noPullDoc baseParams rfl,
   rules_guarded_and_presence_preserved.2.1 baseParams rfl noPullDoc⟩



/-- C1: when the `tag_from_config` plugin is present, the rule sets its
`tag_suffixes` argument to the three-bucket structure in which `unique`
holds exactly the suffix of `image_tag` after its last colon; `primary`
and `floating` stay empty unless the build type is the orchestrator role,
and then exactly one branch of the strict priority chain scratch >
isolated > tags-from-config > default fills them: scratch adds nothing,
isolated only `{version}-{release}` to primary, tags-from-config
`{version}-{release}` to primary and exactly the additional tags to
floating, and the default `{version}-{release}` to primary and `latest`,
`{version}` and the additional tags to floating. -/
theorem tag_from_config_policy (doc : Doc) (u : UserParams)
    (hpres : has_plugin_conf doc "postbuild_plugins" "tag_from_config" = true) :
    (∃ d' c, render_tag_from_config doc u = .ok d' ∧
       get_plugin_conf d' "postbuild_plugins" "tag_from_config" = .ok c ∧
       (c.args.getD []).lookup "tag_suffixes" = some (tagSuffixes u)) ∧
    (∃ primary floating : List String,
      tagSuffixes u =
        .obj [("unique", .arr [.str ((u.image_tag.splitOn ":").getLastD "")]),
              ("primary", .arr (primary.map .str)),
              ("floating", .arr (floating.map .str))] ∧
      (u.build_type ≠ BUILD_TYPE_ORCHESTRATOR → primary = [] ∧ floating = []) ∧
      (u.build_type = BUILD_TYPE_ORCHESTRATOR →
        (truthy u.scratch = true → primary = [] ∧ floating = []) ∧
        (truthy u.scratch = false → truthy u.isolated = true →
          primary = ["{version}-{release}"] ∧ floating = []) ∧
        (truthy u.scratch = false → truthy u.isolated = false →
          truthy u.tags_from_yaml = true →
          primary = ["{version}-{release}"] ∧ floating = u.additional_tags) ∧
        (truthy u.scratch = false → truthy u.isolated = false →
          truthy u.tags_from_yaml = false →
          primary = ["{version}-{release}"] ∧
          floating = ["latest", "{version}"] ++ u.additional_tags))) := by
  constructor
  · obtain ⟨c, hc⟩ := get_ok_of_has doc _ _ hpres
    obtain ⟨d1, hd1⟩ := set_plugin_arg_ok_of_has doc "postbuild_plugins"
      "tag_from_config" "tag_suffixes" (tagSuffixes u) hpres
    refine ⟨d1,
      { c with args := some (assocSet (c.args.getD []) "tag_suffixes" (tagSuffixes u)) },
      ?_, ?_, ?_⟩
    · simp only [render_tag_from_config, hpres, ite_true, applyOps, applyOp, hd1]
    · exact get_after_set doc _ _ _ _ d1 hd1 c hc
    · exact lookup_assocSet_self _ _ _
  · by_cases hb : u.build_type = BUILD_TYPE_ORCHESTRATOR
    · by_cases hs : truthy u.scratch = true
      · refine ⟨[], [], by simp [tagSuffixes, hb, hs], fun hnb => absurd hb hnb, fun _ => ?_⟩
        refine ⟨fun _ => ⟨rfl, rfl⟩, ?_, ?_, ?_⟩
        · intro hsf _; rw [hsf] at hs; cases hs
        · intro hsf _ _; rw [hsf] at hs; cases hs
        · intro hsf _ _; rw [hsf] at hs; cases hs
      · have hs' : truthy u.scratch = false := by
          cases hv : truthy u.scratch
          · rfl
          · exact absurd hv hs
        by_cases hi : truthy u.isolated = true
        · refine ⟨["{version}-{release}"], [],
            by simp [tagSuffixes, hb, hs', hi], fun hnb => absurd hb hnb, fun _ => ?_⟩
          refine ⟨?_, fun _ _ => ⟨rfl, rfl⟩, ?_, ?_⟩
          · intro hsc; rw [hsc] at hs'; cases hs'
          · intro _ hif _; rw [hif] at hi; cases hi
          · intro _ hif _; rw [hif] at hi; cases hi
        · have hi' : truthy u.isolated = false := by
            cases hv : truthy u.isolated
            · rfl
            · exact absurd hv hi
          by_cases ht : truthy u.tags_from_yaml = true
          · refine ⟨["{version}-{release}"], u.additional_tags,
              by simp [tagSuffixes, hb, hs', hi', ht], fun hnb => absurd hb hnb, fun _ => ?_⟩
            refine ⟨?_, ?_, fun _ _ _ => ⟨rfl, rfl⟩, ?_⟩
            · intro hsc; rw [hsc] at hs'; cases hs'
            · intro _ hic; rw [hic] at hi'; cases hi'
            · intro _ _ htf; rw [htf] at ht; cases ht
          · have ht' : truthy u.tags_from_yaml = false := by
              cases hv : truthy u.tags_from_yaml
              · rfl
              · exact absurd hv ht
            refine ⟨["{version}-{release}"], ["latest", "{version}"] ++ u.additional_tags,
              by simp [tagSuffixes, hb, hs', hi', ht'], fun hnb => absurd hb hnb, fun _ => ?_⟩
            refine ⟨?_, ?_, ?_, fun _ _ _ => ⟨rfl, rfl⟩⟩
            · intro hsc; rw [hsc] at hs'; cases hs'
            · intro _ hic; rw [hic] at hi'; cases hi'
            · intro _ _ htc; rw [htc] at ht'; cases ht'
    · refine ⟨[], [], by simp [tagSuffixes, hb], fun _ => ⟨rfl, rfl⟩,
        fun hbb => absurd hbb hb⟩

/-- C1, witness: the policy theorem applied to a concrete document holding
the `tag_from_config` plugin and orchestrator-role parameters. -/
theorem tag_from_config_policy_witness :
    ∃ d' c, render_tag_from_config tagDoc orchParams = .ok d' ∧
      get_plugin_conf d' "postbuild_plugins" "tag_from_config" = .ok c ∧
      (c.args.getD []).lookup "tag_suffixes" = some (tagSuffixes orchParams) :=
  (tag_from_config_policy tagDoc orchParams rfl).1


/-! ## Lemmas for the add-or-replace override law -/

theorem setPhase_setPhase (d : Doc) (ph : String) (x y : List PluginEntry) :
    setPhase (setPhase d ph x) ph y = setPhase d ph y := by
  induction d with
  | nil => rfl
  | cons kv rest ih =>
    obtain ⟨a, b⟩ := kv
    by_cases h : a = ph
    · simp [setPhase, h] at ih ⊢
      simpa [setPhase] using ih
    · simp [setPhase, h] at ih ⊢
      simpa [setPhase] using ih

theorem override_map_names (ps : List PluginEntry) (n : String) (a : Args) :
    (ps.map (fun p => if p.name = n then { p with args := some a } else p)).map
        PluginEntry.name = ps.map PluginEntry.name := by
  induction ps with
  | nil => rfl
  | cons p rest ih =>
    by_cases h : p.name = n <;> simp [h, ih]

theorem countName_of_names_eq (ps qs : List PluginEntry) (n : String)
    (h : ps.map PluginEntry.name = qs.map PluginEntry.name) :
    countName ps n = countName qs n := by
  induction ps generalizing qs with
  | nil => cases qs with | nil => rfl | cons q qs => simp at h
  | cons p ps ih =>
    cases qs with
    | nil => simp at h
    | cons q qs =>
      simp only [List.map_cons, List.cons.injEq] at h
      have ht := ih qs h.2
      simp only [countName] at ht
      by_cases hp : p.name = n
      · have hq : q.name = n := h.1 ▸ hp
        have e1 := List.filter_cons_of_pos (p := fun x : PluginEntry => decide (x.name = n))
          (a := p) (l := ps) (by simpa using hp)
        have e2 := List.filter_cons_of_pos (p := fun x : PluginEntry => decide (x.name = n))
          (a := q) (l := qs) (by simpa using hq)
        simp only [countName, e1, e2, List.length_cons]
        omega
      · have hq : ¬ q.name = n := fun hh => hp (h.1 ▸ hh)
        have e1 := List.filter_cons_of_neg (p := fun x : PluginEntry => decide (x.name = n))
          (a := p) (l := ps) (by simpa using hp)
        have e2 := List.filter_cons_of_neg (p := fun x : PluginEntry => decide (x.name = n))
          (a := q) (l := qs) (by simpa using hq)
        simp only [countName, e1, e2]
        omega

theorem countName_pos_of_any (ps : List PluginEntry) (n : String)
    (h : ps.any (fun p => p.name = n) = true) : 1 ≤ countName ps n := by
  obtain ⟨c, hc, hcp⟩ := List.any_eq_true.mp h
  have : c ∈ ps.filter (fun p => decide (p.name = n)) :=
    List.mem_filter.mpr ⟨hc, hcp⟩
  have hne : ps.filter (fun p => decide (p.name = n)) ≠ [] :=
    fun hnil => by rw [hnil] at this; cases this
  have := List.length_pos.mpr hne
  simpa [countName] using this

theorem countName_zero_of_not_any (ps : List PluginEntry) (n : String)
    (h : ps.any (fun p => p.name = n) = false) : countName ps n = 0 := by
  have : ps.filter (fun p => decide (p.name = n)) = [] := by
    rw [List.filter_eq_nil_iff]
    intro a ha
    exact by simpa using (List.any_eq_false.mp h) a ha
  simp [countName, this]

theorem map_override_id_of_not_any (ps : List PluginEntry) (n : String) (a : Args)
    (h : ps.any (fun p => p.name = n) = false) :
    ps.map (fun p => if p.name = n then { p with args := some a } else p) = ps := by
  induction ps with
  | nil => rfl
  | cons p rest ih =>
    simp only [List.any_cons, Bool.or_eq_false_iff] at h
    have hp : ¬ p.name = n := by simpa using h.1
    simp [hp, ih h.2]

theorem override_map_override (ps : List PluginEntry) (n : String) (a1 a2 : Args) :
    ((ps.map (fun p => if p.name = n then { p with args := some a1 } else p)).map
        (fun p => if p.name = n then { p with args := some a2 } else p)) =
      ps.map (fun p => if p.name = n then { p with args := some a2 } else p) := by
  induction ps with
  | nil => rfl
  | cons p rest ih =>
    by_cases h : p.name = n <;> simp [h, ih]

theorem countName_map_override (ps : List PluginEntry) (n : String) (a : Args) :
    countName (ps.map (fun p => if p.name = n then { p with args := some a } else p)) n =
      countName ps n :=
  countName_of_names_eq _ _ n (override_map_names ps n a)


/-- C6: calling `add_plugin` twice with the same `(phase, name)` and
different args is the same as calling it once with the second args
(override law): starting from a phase holding at most one entry of the
name, exactly one entry of that name remains, carrying the second call's
args; a pre-existing entry is overridden in place (a positional map), and
a fresh name is appended once at the end of the phase's sequence. -/
theorem add_plugin_override (doc : Doc) (ph n : String) (a1 a2 : Args)
    (ps : List PluginEntry) (hph : lookupPhase doc ph = some ps)
    (hcount : countName ps n ≤ 1) :
    ∃ d1 d2, add_plugin doc ph n a1 = .ok d1 ∧ add_plugin d1 ph n a2 = .ok d2 ∧
      add_plugin doc ph n a2 = .ok d2 ∧
      ∃ qs, lookupPhase d2 ph = some qs ∧ countName qs n = 1 ∧
        qs = (if ps.any (fun p => p.name = n) then
                ps.map (fun p => if p.name = n then { p with args := some a2 } else p)
              else ps ++ [{ name := n, args := some a2 }]) := by
  by_cases hx : ps.any (fun p => p.name = n) = true
  · have h1 : add_plugin doc ph n a1 = .ok (setPhase doc ph
        (ps.map (fun p => if p.name = n then { p with args := some a1 } else p))) := by
      simp [add_plugin, hph, hx]
    have hl1 : lookupPhase (setPhase doc ph
        (ps.map (fun p => if p.name = n then { p with args := some a1 } else p))) ph =
        some (ps.map (fun p => if p.name = n then { p with args := some a1 } else p)) := by
      rw [lookupPhase_setPhase, if_pos rfl, hph]
      rfl
    have hx1 : (ps.map (fun p => if p.name = n then { p with args := some a1 } else p)).any
        (fun p => p.name = n) = true := by
      rw [any_name_of_names_eq _ ps n (override_map_names ps n a1)]
      exact hx
    have h2 : add_plugin (setPhase doc ph
        (ps.map (fun p => if p.name = n then { p with args := some a1 } else p))) ph n a2 =
        .ok (setPhase doc ph
          (ps.map (fun p => if p.name = n then { p with args := some a2 } else p))) := by
      simp only [add_plugin, hl1, hx1, ite_true]
      rw [override_map_override ps n a1 a2, setPhase_setPhase]
    have h3 : add_plugin doc ph n a2 = .ok (setPhase doc ph
        (ps.map (fun p => if p.name = n then { p with args := some a2 } else p))) := by
      simp [add_plugin, hph, hx]
    refine ⟨_, _, h1, h2, h3,
      ps.map (fun p => if p.name = n then { p with args := some a2 } else p), ?_, ?_, ?_⟩
    · rw [lookupPhase_setPhase, if_pos rfl, hph]
      rfl
    · rw [countName_map_override ps n a2]
      have := countName_pos_of_any ps n hx
      omega
    · simp [hx]
  · have hx' : ps.any (fun p => p.name = n) = false := by
      cases hv : ps.any (fun p => p.name = n)
      · rfl
      · exact absurd hv hx
    have h1 : add_plugin doc ph n a1 =
        .ok (setPhase doc ph (ps ++ [{ name := n, args := some a1 }])) := by
      simp [add_plugin, hph, hx']
    have hl1 : lookupPhase (setPhase doc ph (ps ++ [{ name := n, args := some a1 }])) ph =
        some (ps ++ [{ name := n, args := some a1 }]) := by
      rw [lookupPhase_setPhase, if_pos rfl, hph]
      rfl
    have hx1 : (ps ++ [({ name := n, args := some a1 } : PluginEntry)]).any
        (fun p => p.name = n) = true := by
      simp [List.any_append]
    have hmap : (ps ++ [({ name := n, args := some a1 } : PluginEntry)]).map
        (fun p => if p.name = n then { p with args := some a2 } else p) =
        ps ++ [({ name := n, args := some a2 } : PluginEntry)] := by
      rw [List.map_append, map_override_id_of_not_any ps n a2 hx']
      simp
    have h2 : add_plugin (setPhase doc ph (ps ++ [{ name := n, args := some a1 }])) ph n a2 =
        .ok (setPhase doc ph (ps ++ [{ name := n, args := some a2 }])) := by
      simp only [add_plugin, hl1, hx1, ite_true]
      rw [hmap, setPhase_setPhase]
    have h3 : add_plugin doc ph n a2 =
        .ok (setPhase doc ph (ps ++ [{ name := n, args := some a2 }])) := by
      simp [add_plugin, hph, hx']
    refine ⟨_, _, h1, h2, h3, ps ++ [{ name := n, args := some a2 }], ?_, ?_, ?_⟩
    · rw [lookupPhase_setPhase, if_pos rfl, hph]
      rfl
    · have hz := countName_zero_of_not_any ps n hx'
      simp only [countName, List.filter_append] at hz ⊢
      simp [hz]
    · simp [hx']

/-- C6, witness: the override law applied to a concrete document in which
the added plugin name is fresh, so the entry is appended once. -/
theorem add_plugin_override_witness :
    ∃ d1 d2, add_plugin noPullDoc "prebuild_plugins" "newp" [("a", .num 1)] = .ok d1 ∧
      add_plugin d1 "prebuild_plugins" "newp" [("a", .num 2)] = .ok d2 ∧
      add_plugin noPullDoc "prebuild_plugins" "newp" [("a", .num 2)] = .ok d2 ∧
      ∃ qs, lookupPhase d2 "prebuild_plugins" = some qs ∧ countName qs "newp" = 1 ∧
        qs = (if ([{ name := "koji", args := none }] : List PluginEntry).any
                  (fun p => p.name = "newp") then
                ([{ name := "koji", args := none }] : List PluginEntry).map
                  (fun p => if p.name = "newp" then { p with args := some [("a", .num 2)] }
                    else p)
              else [{ name := "koji", args := none }] ++
                [{ name := "newp", args := some [("a", .num 2)] }]) :=
  add_plugin_override noPullDoc "prebuild_plugins" "newp" [("a", .num 1)] [("a", .num 2)]
    [{ name := "koji", args := none }] rfl (by decide)


/-- C7: `get_plugin_conf` fails with the phase-not-found error
(`KeyError`) exactly when the phase key is absent, and with the distinct
plugin-not-found error (`IndexError`) exactly when the phase exists but
holds no entry of the name; `has_plugin_conf` is true exactly when
`get_plugin_conf` succeeds, converting both errors (and only them, there
are no others) to `false`. -/
theorem get_has_error_taxonomy (doc : Doc) (ph n : String) :
    (get_plugin_conf doc ph n = .error .keyError ↔ lookupPhase doc ph = none) ∧
    (get_plugin_conf doc ph n = .error .indexError ↔
      ∃ ps, lookupPhase doc ph = some ps ∧ ∀ e ∈ ps, e.name ≠ n) ∧
    (has_plugin_conf doc ph n = true ↔ ∃ c, get_plugin_conf doc ph n = .ok c) := by
  cases hl : lookupPhase doc ph with
  | none =>
    refine ⟨?_, ?_, ?_⟩
    · simp [get_plugin_conf, hl]
    · simp [get_plugin_conf, hl]
    · simp [has_plugin_conf, get_plugin_conf, hl]
  | some ps =>
    cases hf : ps.filter (fun x => decide (x.name = n)) with
    | nil =>
      have hall : ∀ e ∈ ps, e.name ≠ n := fun e he => by
        simpa using List.filter_eq_nil_iff.mp hf e he
      refine ⟨?_, ?_, ?_⟩
      · simp [get_plugin_conf, hl, hf]
      · simp only [get_plugin_conf, hl, hf]
        exact ⟨fun _ => ⟨ps, rfl, hall⟩, fun _ => trivial⟩
      · simp [has_plugin_conf, get_plugin_conf, hl, hf]
    | cons c cs =>
      have hcmem : c ∈ ps.filter (fun x => decide (x.name = n)) := by
        rw [hf]
        exact List.mem_cons_self c cs
      have hcn : c.name = n := by
        simpa using List.of_mem_filter (p := fun x : PluginEntry => decide (x.name = n)) hcmem
      refine ⟨?_, ?_, ?_⟩
      · simp [get_plugin_conf, hl, hf]
      · simp only [get_plugin_conf, hl, hf]
        constructor
        · intro hh
          cases hh
        · rintro ⟨ps', hps', hall⟩
          injection hps' with e
          subst e
          exact absurd hcn (hall c (List.mem_of_mem_filter hcmem))
      · simp [has_plugin_conf, get_plugin_conf, hl, hf]

/-- C7, witness: both error modes and the `has` conversion at concrete
inputs, via the taxonomy theorem. -/
theorem get_has_error_taxonomy_witness :
    get_plugin_conf tagDoc "prebuild_plugins" "koji" = .error .keyError ∧
    get_plugin_conf tagDoc "postbuild_plugins" "koji" = .error .indexError ∧
    has_plugin_conf tagDoc "postbuild_plugins" "tag_from_config" = true :=
  ⟨(get_has_error_taxonomy tagDoc "prebuild_plugins" "koji").1.mpr rfl,
   (get_has_error_taxonomy tagDoc "postbuild_plugins" "koji").2.1.mpr
     ⟨[{ name := "tag_from_config", args := none }], rfl, by decide⟩,
   (get_has_error_taxonomy tagDoc "postbuild_plugins" "tag_from_config").2.2.mpr
     ⟨{ name := "tag_from_config", args := none }, rfl⟩⟩

/-- C8: `set_plugin_arg_valid` with the unset sentinel (`None`) is a true
no-op — it returns `false` with the document (args mappings included)
unchanged; with any non-`None` value it delegates to `set_plugin_arg` and
returns `true`. -/
theorem set_arg_if_present_spec (doc : Doc) (ph pl k : String) :
    set_plugin_arg_valid doc ph pl k .null = .ok (doc, false) ∧
    ∀ v : JVal, v ≠ .null →
      set_plugin_arg_valid doc ph pl k v =
        (match set_plugin_arg doc ph pl k v with
         | .error e => .error e
         | .ok d => .ok (d, true)) := by
  refine ⟨rfl, ?_⟩
  intro v hv
  cases v with
  | null => exact absurd rfl hv
  | bool x => rfl
  | num x => rfl
  | str x => rfl
  | arr x => rfl
  | obj x => rfl

/-- C8, witness: the no-op and the delegation at a concrete document and
value. -/
theorem set_arg_if_present_spec_witness :
    set_plugin_arg_valid tagDoc "postbuild_plugins" "tag_from_config" "k" .null =
      .ok (tagDoc, false) ∧
    set_plugin_arg_valid tagDoc "postbuild_plugins" "tag_from_config" "k" (.str "x") =
      (match set_plugin_arg tagDoc "postbuild_plugins" "tag_from_config" "k" (.str "x") with
       | .error e => .error e
       | .ok d => .ok (d, true)) :=
  ⟨(set_arg_if_present_spec tagDoc "postbuild_plugins" "tag_from_config" "k").1,
   (set_arg_if_present_spec tagDoc "postbuild_plugins" "tag_from_config" "k").2
     (.str "x") (fun h => JVal.noConfusion h)⟩


/-! ## The build_kwargs block of render_orchestrate_build -/

theorem lookup_filter_out (d : Args) (k : String) :
    (d.filter (fun kv => kv.1 ≠ k)).lookup k = none := by
  induction d with
  | nil => rfl
  | cons kv rest ih =>
    obtain ⟨a, b⟩ := kv
    by_cases h : a = k
    · have e1 := List.filter_cons_of_neg (p := fun kv : String × JVal => decide (kv.1 ≠ k))
        (a := (a, b)) (l := rest) (by simp [h])
      rw [e1]
      exact ih
    · have e1 := List.filter_cons_of_pos (p := fun kv : String × JVal => decide (kv.1 ≠ k))
        (a := (a, b)) (l := rest) (by simp [h])
      rw [e1, List.lookup_cons]
      have hne : (k == a) = false := beq_eq_false_iff_ne.mpr (fun hh => h hh.symm)
      simp only [hne]
      exact ih

theorem to_dict_cons (u : UserParams) (m : String) (rest : List String) :
    to_dict u (m :: rest) =
      (match fieldVal u m with
       | .null => to_dict u rest
       | v => (m, v) :: to_dict u rest) := by
  cases hv : fieldVal u m <;> simp [to_dict, List.filterMap_cons, hv]

theorem to_dict_cons_null (u : UserParams) (m : String) (rest : List String)
    (hm : fieldVal u m = .null) : to_dict u (m :: rest) = to_dict u rest := by
  rw [to_dict_cons, hm]

theorem to_dict_cons_notnull (u : UserParams) (m : String) (rest : List String)
    (hm : fieldVal u m ≠ .null) :
    to_dict u (m :: rest) = (m, fieldVal u m) :: to_dict u rest := by
  rw [to_dict_cons]
  cases hfv : fieldVal u m with
  | null => exact absurd hfv hm
  | bool x => rfl
  | num x => rfl
  | str x => rfl
  | arr x => rfl
  | obj x => rfl

theorem lookup_to_dict_of_null (u : UserParams) (k : String)
    (hv : fieldVal u k = .null) :
    ∀ names : List String, (to_dict u names).lookup k = none := by
  intro names
  induction names with
  | nil => rfl
  | cons m rest ih =>
    by_cases hm : fieldVal u m = .null
    · rw [to_dict_cons_null u m rest hm]
      exact ih
    · rw [to_dict_cons_notnull u m rest hm]
      have hk : ¬ k = m := fun hh => hm (hh ▸ hv)
      have hne : (k == m) = false := beq_eq_false_iff_ne.mpr hk
      simp [List.lookup, hne, ih]

theorem lookup_to_dict_of_mem (u : UserParams) (k : String)
    (hv : fieldVal u k ≠ .null) :
    ∀ names : List String, k ∈ names →
      (to_dict u names).lookup k = some (fieldVal u k) := by
  intro names
  induction names with
  | nil => intro hm; cases hm
  | cons m rest ih =>
    intro hmem
    by_cases hk : k = m
    · subst hk
      rw [to_dict_cons_notnull u k rest hv]
      simp [List.lookup]
    · have hmem2 : k ∈ rest := by
        cases hmem with
        | head => exact absurd rfl hk
        | tail _ hh => exact hh
      by_cases hm : fieldVal u m = .null
      · rw [to_dict_cons_null u m rest hm]
        exact ih hmem2
      · rw [to_dict_cons_notnull u m rest hm]
        have hne : (k == m) = false := beq_eq_false_iff_ne.mpr hk
        simp [List.lookup, hne, ih hmem2]

theorem buildKwargs_target (u : UserParams) :
    (buildKwargs u).lookup "target" = some u.koji_target ∧
    (buildKwargs u).lookup "koji_target" = none := by
  have hne3 : ¬ ("target" : String) = "flatpak" := by decide
  have hne2 : ¬ ("koji_target" : String) = "target" := by decide
  have hne4 : ¬ ("koji_target" : String) = "flatpak" := by decide
  have hfk : fieldVal u "koji_target" = u.koji_target := rfl
  by_cases hv : u.koji_target = .null
  · have hl0 : (to_dict u worker_params).lookup "koji_target" = none :=
      lookup_to_dict_of_null u "koji_target" (hfk.trans hv) worker_params
    constructor
    · rw [hv]
      simp only [buildKwargs, dictPop, hl0]
      by_cases hf : truthy u.flatpak = true
      · simp only [hf, ite_true]
        rw [lookup_assocSet_ne _ _ _ _ hne3, lookup_assocSet_self]
      · simp only [hf, Bool.false_eq_true, ite_false]
        rw [lookup_assocSet_self]
    · simp only [buildKwargs, dictPop, hl0]
      by_cases hf : truthy u.flatpak = true
      · simp only [hf, ite_true]
        rw [lookup_assocSet_ne _ _ _ _ hne4, lookup_assocSet_ne _ _ _ _ hne2]
        exact hl0
      · simp only [hf, Bool.false_eq_true, ite_false]
        rw [lookup_assocSet_ne _ _ _ _ hne2]
        exact hl0
  · have hmem : ("koji_target" : String) ∈ worker_params := by
      simp [worker_params]
    have hl0 : (to_dict u worker_params).lookup "koji_target" = some u.koji_target := by
      rw [lookup_to_dict_of_mem u "koji_target" (fun hh => hv (hfk.symm.trans hh))
        worker_params hmem]
      rw [hfk]
    constructor
    · simp only [buildKwargs, dictPop, hl0]
      by_cases hf : truthy u.flatpak = true
      · simp only [hf, ite_true]
        rw [lookup_assocSet_ne _ _ _ _ hne3, lookup_assocSet_self]
      · simp only [hf, Bool.false_eq_true, ite_false]
        rw [lookup_assocSet_self]
    · simp only [buildKwargs, dictPop, hl0]
      by_cases hf : truthy u.flatpak = true
      · simp only [hf, ite_true]
        rw [lookup_assocSet_ne _ _ _ _ hne4, lookup_assocSet_ne _ _ _ _ hne2]
        exact lookup_filter_out _ _
      · simp only [hf, Bool.false_eq_true, ite_false]
        rw [lookup_assocSet_ne _ _ _ _ hne2]
        exact lookup_filter_out _ _


/-- C9: template-key resolution is a pure function of build type and
arrangement version: standard image builds use
`"{build_type}_inner:{version}.json"`, source-container builds the fixed
`"orchestrator_sources_inner:{version}.json"` independent of build type. -/
theorem pt_path_resolution :
    (∀ u : UserParams, PluginsConfiguration_pt_path u =
       u.build_type ++ "_inner:" ++ toString u.arrangement_version ++ ".json") ∧
    (∀ u : UserParams, SourceContainerPluginsConfiguration_pt_path u =
       "orchestrator_sources_inner:" ++ toString u.arrangement_version ++ ".json") ∧
    (∀ u uu : UserParams, u.build_type = uu.build_type →
       u.arrangement_version = uu.arrangement_version →
       PluginsConfiguration_pt_path u = PluginsConfiguration_pt_path uu) ∧
    (∀ u uu : UserParams, u.arrangement_version = uu.arrangement_version →
       SourceContainerPluginsConfiguration_pt_path u =
         SourceContainerPluginsConfiguration_pt_path uu) := by
  refine ⟨fun u => rfl, fun u => rfl, ?_, ?_⟩
  · intro u uu h1 h2
    simp [PluginsConfiguration_pt_path, h1, h2]
  · intro u uu h2
    simp [SourceContainerPluginsConfiguration_pt_path, h2]

/-- C9, witness: two parameter records agreeing on build type and
arrangement version resolve the same template keys. -/
theorem pt_path_resolution_witness :
    PluginsConfiguration_pt_path baseParams = PluginsConfiguration_pt_path digestsParams ∧
    SourceContainerPluginsConfiguration_pt_path baseParams =
      SourceContainerPluginsConfiguration_pt_path orchParams :=
  ⟨pt_path_resolution.2.2.1 baseParams digestsParams rfl rfl,
   pt_path_resolution.2.2.2 baseParams orchParams rfl⟩

/-- C10: whenever `orchestrate_build` is present, its `build_kwargs`
argument block holds the key `target` (the renamed `koji_target`), whose
value is the `koji_target` parameter — explicitly the null value when that
parameter is unset, never omitted — while the key `koji_target` itself is
absent from the block. -/
theorem orchestrate_build_target (doc : Doc) (u : UserParams)
    (hpres : has_plugin_conf doc "buildstep_plugins" "orchestrate_build" = true) :
    ∃ d3 c3, render_orchestrate_build doc u = .ok d3 ∧
      get_plugin_conf d3 "buildstep_plugins" "orchestrate_build" = .ok c3 ∧
      (c3.args.getD []).lookup "build_kwargs" = some (.obj (buildKwargs u)) ∧
      (buildKwargs u).lookup "target" = some u.koji_target ∧
      (buildKwargs u).lookup "koji_target" = none := by
  obtain ⟨d1, hd1⟩ := applyOp_ok_of_has doc "buildstep_plugins" "orchestrate_build"
    (.setValid "platforms" u.platforms) hpres
  have h1has : has_plugin_conf d1 "buildstep_plugins" "orchestrate_build" = true := by
    rw [applyOp_presence doc _ _ _ d1 hd1 "buildstep_plugins" "orchestrate_build"]
    exact hpres
  obtain ⟨d2, hd2⟩ := set_plugin_arg_ok_of_has d1 "buildstep_plugins" "orchestrate_build"
    "build_kwargs" (.obj (buildKwargs u)) h1has
  have h2has : has_plugin_conf d2 "buildstep_plugins" "orchestrate_build" = true := by
    rw [set_plugin_arg_presence d1 _ _ _ _ d2 hd2 "buildstep_plugins" "orchestrate_build"]
    exact h1has
  obtain ⟨d3, hd3⟩ := set_plugin_arg_ok_of_has d2 "buildstep_plugins" "orchestrate_build"
    "config_kwargs" (.obj (configKwargs u)) h2has
  obtain ⟨c1, hc1⟩ := get_ok_of_has d1 _ _ h1has
  have hc2 := get_after_set d1 _ _ _ _ d2 hd2 c1 hc1
  have hc3 := get_after_set d2 _ _ _ _ d3 hd3 _ hc2
  refine ⟨d3, _, ?_, hc3, ?_, (buildKwargs_target u).1, (buildKwargs_target u).2⟩
  · simp only [applyOp] at hd1
    simp only [render_orchestrate_build, hpres, ite_true, applyOps, applyOp, hd1, hd2, hd3]
  · have hne : ¬ ("build_kwargs" : String) = "config_kwargs" := by decide
    show ((assocSet _ "config_kwargs" (.obj (configKwargs u))).lookup "build_kwargs") = _
    rw [lookup_assocSet_ne _ _ _ _ hne]
    exact lookup_assocSet_self _ _ _

/-- C10, witness: at a concrete document and unset `koji_target`, the
rendered `build_kwargs` holds `target` with the explicit null value. -/
theorem orchestrate_build_target_witness :
    ∃ d3 c3, render_orchestrate_build orchDoc baseParams = .ok d3 ∧
      get_plugin_conf d3 "buildstep_plugins" "orchestrate_build" = .ok c3 ∧
      (c3.args.getD []).lookup "build_kwargs" = some (.obj (buildKwargs baseParams)) ∧
      (buildKwargs baseParams).lookup "target" = some baseParams.koji_target ∧
      (buildKwargs baseParams).lookup "koji_target" = none :=
  orchestrate_build_target orchDoc baseParams rfl


/-! ## Lemmas about the customization pass -/

theorem applyDisable_shift (d : Doc) (k : Nat) (e : CustomEntry) :
    applyDisable (d, k) e = ((applyDisable (d, 0) e).1, k + (applyDisable (d, 0) e).2) := by
  rcases e with ⟨pt, pn, pa⟩
  cases pt with
  | none => simp [applyDisable]
  | some t =>
    cases pn with
    | none => simp [applyDisable]
    | some nn =>
      cases hr : remove_plugin d t nn with
      | ok d2 => simp [applyDisable, hr]
      | error e2 => simp [applyDisable, hr]

theorem applyEnable_shift (d : Doc) (k : Nat) (e : CustomEntry) :
    applyEnable (d, k) e = ((applyEnable (d, 0) e).1, k + (applyEnable (d, 0) e).2) := by
  rcases e with ⟨pt, pn, pa⟩
  cases pt with
  | none => simp [applyEnable]
  | some t =>
    cases pn with
    | none => simp [applyEnable]
    | some nn =>
      cases pa with
      | none => simp [applyEnable]
      | some aa =>
        cases hr : add_plugin d t nn aa with
        | ok d2 => simp [applyEnable, hr]
        | error e2 => simp [applyEnable, hr]

theorem foldl_applyDisable_shift (l : List CustomEntry) :
    ∀ (d : Doc) (k : Nat),
      l.foldl applyDisable (d, k) =
        ((l.foldl applyDisable (d, 0)).1, k + (l.foldl applyDisable (d, 0)).2) := by
  induction l with
  | nil => intro d k; simp
  | cons e rest ih =>
    intro d k
    simp only [List.foldl_cons]
    rcases hab : applyDisable (d, 0) e with ⟨a, b⟩
    rw [applyDisable_shift d k e, hab]
    dsimp only
    rw [ih a (k + b), ih a b]
    simp only [Prod.mk.injEq, true_and]
    omega

theorem foldl_applyEnable_shift (l : List CustomEntry) :
    ∀ (d : Doc) (k : Nat),
      l.foldl applyEnable (d, k) =
        ((l.foldl applyEnable (d, 0)).1, k + (l.foldl applyEnable (d, 0)).2) := by
  induction l with
  | nil => intro d k; simp
  | cons e rest ih =>
    intro d k
    simp only [List.foldl_cons]
    rcases hab : applyEnable (d, 0) e with ⟨a, b⟩
    rw [applyEnable_shift d k e, hab]
    dsimp only
    rw [ih a (k + b), ih a b]
    simp only [Prod.mk.injEq, true_and]
    omega

theorem applyDisable_malformed (d : Doc) (k : Nat) (e : CustomEntry)
    (h : e.plugin_type = none ∨ e.plugin_name = none) :
    applyDisable (d, k) e = (d, k + 1) := by
  rcases e with ⟨pt, pn, pa⟩
  cases pt with
  | none => simp [applyDisable]
  | some t =>
    cases pn with
    | none => simp [applyDisable]
    | some nn => rcases h with h|h <;> simp at h

theorem applyEnable_malformed (d : Doc) (k : Nat) (e : CustomEntry)
    (h : e.plugin_type = none ∨ e.plugin_name = none ∨ e.plugin_args = none) :
    applyEnable (d, k) e = (d, k + 1) := by
  rcases e with ⟨pt, pn, pa⟩
  cases pt with
  | none => simp [applyEnable]
  | some t =>
    cases pn with
    | none => simp [applyEnable]
    | some nn =>
      cases pa with
      | none => simp [applyEnable]
      | some aa => rcases h with h|h|h <;> simp at h

theorem removeFirst_no_match (ps : List PluginEntry) (n : String)
    (h : countName ps n ≤ 1) : ∀ e ∈ removeFirst ps n, e.name ≠ n := by
  induction ps with
  | nil => intro e he; cases he
  | cons p rest ih =>
    by_cases hp : p.name = n
    · intro e he
      simp only [removeFirst, if_pos hp] at he
      have e1 := List.filter_cons_of_pos (p := fun x : PluginEntry => decide (x.name = n))
        (a := p) (l := rest) (by simpa using hp)
      have hc0 : countName rest n = 0 := by
        simp only [countName, e1, List.length_cons] at h
        simp only [countName]
        omega
      have hall2 : ∀ a ∈ rest, ¬ a.name = n := by simpa [countName] using hc0
      have hfil : rest.filter (fun x => decide (x.name = n)) = [] :=
        List.filter_eq_nil_iff.mpr (fun a ha => by simpa using hall2 a ha)
      intro hen
      have hmem : e ∈ rest.filter (fun x => decide (x.name = n)) :=
        List.mem_filter.mpr ⟨he, by simpa using hen⟩
      rw [hfil] at hmem
      cases hmem
    · intro e he
      simp only [removeFirst, if_neg hp] at he
      cases he with
      | head => exact hp
      | tail _ hh =>
        have e1 := List.filter_cons_of_neg (p := fun x : PluginEntry => decide (x.name = n))
          (a := p) (l := rest) (by simp [hp])
        have hcc : countName rest n ≤ 1 := by
          simp only [countName, e1] at h
          simpa [countName] using h
        exact ih hcc e hh


/-- C4: in one customization document all disables run before any enable;
disabling then re-enabling a `(phase, name)` present exactly once leaves
the plugin present with the enable-supplied args, appended at the end of
its phase — the removed-then-readded plugin loses its original position
(no remaining entry of the name precedes it). -/
theorem customization_disable_then_enable (doc : Doc) (ph n : String) (args : Args)
    (ps : List PluginEntry) (hph : lookupPhase doc ph = some ps)
    (hcount : countName ps n = 1) :
    lookupPhase (render_customizations doc
        ⟨[⟨some ph, some n, none⟩], [⟨some ph, some n, some args⟩]⟩).1 ph =
      some (removeFirst ps n ++ [{ name := n, args := some args }]) ∧
    (∀ e ∈ removeFirst ps n, e.name ≠ n) ∧
    get_plugin_conf (render_customizations doc
        ⟨[⟨some ph, some n, none⟩], [⟨some ph, some n, some args⟩]⟩).1 ph n =
      .ok { name := n, args := some args } ∧
    countName (removeFirst ps n ++ [{ name := n, args := some args }]) n = 1 := by
  have hnm : ∀ e ∈ removeFirst ps n, e.name ≠ n :=
    removeFirst_no_match ps n (le_of_eq hcount)
  have hany : (removeFirst ps n).any (fun p => p.name = n) = false := by
    rw [List.any_eq_false]
    intro x hx
    simpa using hnm x hx
  have hrm : remove_plugin doc ph n = .ok (setPhase doc ph (removeFirst ps n)) := by
    simp [remove_plugin, hph]
  have hl1 : lookupPhase (setPhase doc ph (removeFirst ps n)) ph =
      some (removeFirst ps n) := by
    rw [lookupPhase_setPhase, if_pos rfl, hph]
    rfl
  have hadd : add_plugin (setPhase doc ph (removeFirst ps n)) ph n args =
      .ok (setPhase (setPhase doc ph (removeFirst ps n)) ph
        (removeFirst ps n ++ [{ name := n, args := some args }])) := by
    simp [add_plugin, hl1, hany]
  have hrc : (render_customizations doc
      ⟨[⟨some ph, some n, none⟩], [⟨some ph, some n, some args⟩]⟩).1 =
      setPhase doc ph (removeFirst ps n ++ [{ name := n, args := some args }]) := by
    simp only [render_customizations, List.foldl_cons, List.foldl_nil,
      applyDisable, applyEnable, hrm, hadd]
    rw [setPhase_setPhase]
  have hfil : (removeFirst ps n ++ [({ name := n, args := some args } : PluginEntry)]).filter
      (fun x => decide (x.name = n)) = [{ name := n, args := some args }] := by
    rw [List.filter_append]
    have h1 : (removeFirst ps n).filter (fun x => decide (x.name = n)) = [] :=
      List.filter_eq_nil_iff.mpr (fun a ha => by simpa using hnm a ha)
    rw [h1]
    simp
  refine ⟨?_, hnm, ?_, ?_⟩
  · rw [hrc, lookupPhase_setPhase, if_pos rfl, hph]
    rfl
  · rw [hrc]
    unfold get_plugin_conf
    rw [lookupPhase_setPhase, if_pos rfl, hph]
    simp only [Option.map_some', hfil]
  · simp [countName, hfil]

/-- C4, witness: on a three-entry phase the disabled-then-re-enabled
plugin reappears with the enable args (and, per the theorem, at the end). -/
theorem customization_disable_then_enable_witness :
    get_plugin_conf (render_customizations c4doc
        ⟨[⟨some "postbuild_plugins", some "tag_and_push", none⟩],
         [⟨some "postbuild_plugins", some "tag_and_push", some [("k", .bool true)]⟩]⟩).1
      "postbuild_plugins" "tag_and_push" =
      .ok { name := "tag_and_push", args := some [("k", .bool true)] } :=
  (customization_disable_then_enable c4doc "postbuild_plugins" "tag_and_push"
    [("k", .bool true)]
    [{ name := "pa", args := none },
     { name := "tag_and_push", args := none },
     { name := "pb", args := none }] rfl rfl).2.2.1

/-- C5: a disable entry missing a required key, or an enable entry missing
one (including `plugin_args`), mutates nothing, adds exactly one
diagnostic, and leaves the processing of every other entry of the same
customization document unchanged. -/
theorem customization_malformed_skipped (doc : Doc) (e : CustomEntry)
    (pre post ens dis : List CustomEntry) :
    ((e.plugin_type = none ∨ e.plugin_name = none) →
      render_customizations doc ⟨pre ++ e :: post, ens⟩ =
        ((render_customizations doc ⟨pre ++ post, ens⟩).1,
         (render_customizations doc ⟨pre ++ post, ens⟩).2 + 1)) ∧
    ((e.plugin_type = none ∨ e.plugin_name = none ∨ e.plugin_args = none) →
      render_customizations doc ⟨dis, pre ++ e :: post⟩ =
        ((render_customizations doc ⟨dis, pre ++ post⟩).1,
         (render_customizations doc ⟨dis, pre ++ post⟩).2 + 1)) := by
  constructor
  · intro h
    unfold render_customizations
    simp only [List.foldl_append, List.foldl_cons]
    rcases hp : pre.foldl applyDisable (doc, 0) with ⟨dp, kp⟩
    rw [applyDisable_malformed dp kp e h]
    rw [foldl_applyDisable_shift post dp (kp + 1), foldl_applyDisable_shift post dp kp]
    rcases hq : post.foldl applyDisable (dp, 0) with ⟨dq, kq⟩
    dsimp only
    rw [foldl_applyEnable_shift ens dq (kp + 1 + kq), foldl_applyEnable_shift ens dq (kp + kq)]
    rcases hr : ens.foldl applyEnable (dq, 0) with ⟨dr, kr⟩
    dsimp only
    simp only [Prod.mk.injEq, true_and]
    omega
  · intro h
    unfold render_customizations
    rcases hd : dis.foldl applyDisable (doc, 0) with ⟨dd, kd⟩
    dsimp only
    simp only [List.foldl_append, List.foldl_cons]
    rcases hp : pre.foldl applyEnable (dd, kd) with ⟨dp, kp⟩
    rw [applyEnable_malformed dp kp e h]
    rw [foldl_applyEnable_shift post dp (kp + 1), foldl_applyEnable_shift post dp kp]
    rcases hq : post.foldl applyEnable (dp, 0) with ⟨dq, kq⟩
    dsimp only
    simp only [Prod.mk.injEq, true_and]
    omega

/-- C5, witness: a disable entry with no `plugin_name` and an enable entry
with no `plugin_args`, each between well-formed neighbours, change the
outcome only by one diagnostic. -/
theorem customization_malformed_skipped_witness :
    render_customizations c4doc
        ⟨[⟨some "postbuild_plugins", none, none⟩], []⟩ =
      ((render_customizations c4doc ⟨[], []⟩).1,
       (render_customizations c4doc ⟨[], []⟩).2 + 1) ∧
    render_customizations c4doc
        ⟨[], [⟨some "postbuild_plugins", some "pa", none⟩]⟩ =
      ((render_customizations c4doc ⟨[], []⟩).1,
       (render_customizations c4doc ⟨[], []⟩).2 + 1) :=
  ⟨(customization_malformed_skipped c4doc ⟨some "postbuild_plugins", none, none⟩
      [] [] [] []).1 (.inr rfl),
   (customization_malformed_skipped c4doc ⟨some "postbuild_plugins", some "pa", none⟩
      [] [] [] []).2 (.inr (.inr rfl))⟩


/-- C3: when the template cannot be opened, or opens but is not valid
structured data, the whole render (image and source-container alike) fails
with the corresponding template-load error — the caught-open
`OsbsException` or the propagated parse `ValueError` — with no fallback
and no partial document; the outcome is independent of the customization
document and of every other user parameter, so nothing is mutated and the
customization pass has no effect. -/
theorem template_load_failure (conf conf2 : CustomizeConf) (u u2 : UserParams)
    (hv : u.validate_ok = true) (hv2 : u2.validate_ok = true) :
    (PluginsConfiguration_render .openFail conf u = .error .templateOpen ∧
     PluginsConfiguration_render .parseFail conf u = .error .templateParse ∧
     SourceContainerPluginsConfiguration_render .openFail conf u = .error .templateOpen ∧
     SourceContainerPluginsConfiguration_render .parseFail conf u =
       .error .templateParse) ∧
    (PluginsConfiguration_render .openFail conf u =
       PluginsConfiguration_render .openFail conf2 u2 ∧
     PluginsConfiguration_render .parseFail conf u =
       PluginsConfiguration_render .parseFail conf2 u2) := by
  refine ⟨⟨?_, ?_, ?_, ?_⟩, ?_, ?_⟩ <;>
    simp [PluginsConfiguration_render, SourceContainerPluginsConfiguration_render,
      loadTemplate, hv, hv2]

/-- C3, witness: a concrete unopenable template fails a concrete render
with the template-open error. -/
theorem template_load_failure_witness :
    PluginsConfiguration_render .openFail ⟨[], []⟩ baseParams = .error .templateOpen :=
  (template_load_failure ⟨[], []⟩ ⟨[], []⟩ baseParams baseParams rfl rfl).1.1

end Osbs
